import Mathlib

/-!
Shallow embedding of the `QueryDiversityEngine` class found in
`src/util/notifications/ErrorReportingWebhook.ts` (second unit of that file),
together with formal statements and proofs of the specification claims.

Conventions of the embedding:
* JavaScript runtime values produced by `JSON.parse` are modelled by the
  inductive type `Json`; member access, truthiness, `||` defaulting,
  `for...of` iteration and `Object.values` are modelled by small total or
  `Except`-valued helpers mirroring the JS semantics (a thrown `TypeError`
  becomes `Except.error`).
* HTTP response bodies are modelled by `BodyText`: either plain text (for
  which `JSON.parse` throws), the serialization of a `Json` value, or a
  serialization preceded by the Google-Trends anti-hijack prefix.
* String lengths use `jsLen`, the number of UTF-16 code units, which is what
  the JavaScript `.length` property counts.
* The injected HTTP client, the optional `NEWS_API_KEY` environment value,
  the subreddit random pick and `Util.shuffleArray` are inputs, collected in
  the `Env` structure.
* Side effects (issued HTTP requests, emitted log events, the per-source
  cache) are threaded explicitly through `EngineState`.
-/

/-- JSON runtime values, as produced by `JSON.parse`. Numbers are restricted
to integers, which covers every payload relevant to the claims. -/
inductive Json where
  | null
  | bool (b : Bool)
  | num (n : Int)
  | str (s : String)
  | arr (elems : List Json)
  | obj (fields : List (String × Json))

/-- First field with the given key, as JS property lookup on a plain object. -/
def jsonLookup : List (String × Json) → String → Option Json
  | [], _ => none
  | (k, v) :: fs, key => if k = key then some v else jsonLookup fs key

/-- JavaScript truthiness of a JSON value. -/
def Json.truthy : Json → Bool
  | .null => false
  | .bool b => b
  | .num n => n != 0
  | .str s => s != ""
  | .arr _ => true
  | .obj _ => true

/-- JavaScript member access `v.key`: throws a `TypeError` when the receiver
is `null` or `undefined` (`none`), yields `undefined` (`none`) on primitives
and missing fields. -/
def jsAccess : Option Json → String → Except String (Option Json)
  | none, key => .error ("TypeError: cannot read " ++ key ++ " of undefined")
  | some .null, key => .error ("TypeError: cannot read " ++ key ++ " of null")
  | some (.obj fs), key => .ok (jsonLookup fs key)
  | some _, _ => .ok none

/-- JavaScript optional member access `v?.key`: never throws. -/
def optAccess : Option Json → String → Option Json
  | some (.obj fs), key => jsonLookup fs key
  | _, _ => none

/-- JavaScript `x || y` over possibly-undefined JSON values. -/
def jsOr (a b : Option Json) : Option Json :=
  match a with
  | some v => if v.truthy then some v else b
  | none => b

/-- JavaScript `x || dflt` where `dflt` is a literal. -/
def jsOrElse (x : Option Json) (dflt : Json) : Json :=
  match x with
  | some v => if v.truthy then v else dflt
  | none => dflt

/-- Array methods such as `.map`/`.flatMap` require an actual array; calling
them on anything else throws a `TypeError`. -/
def asArray : Json → Except String (List Json)
  | .arr xs => .ok xs
  | _ => .error "TypeError: not an array"

/-- JavaScript `for...of` iteration: arrays iterate their elements, strings
iterate their characters, everything else throws a `TypeError`. -/
def jsIterate : Json → Except String (List Json)
  | .arr xs => .ok xs
  | .str s => .ok (s.data.map (fun c => .str (String.mk [c])))
  | _ => .error "TypeError: not iterable"

/-- JavaScript `Object.values`: field values of an object, elements of an
array, characters of a string, empty for other primitives, `TypeError` on
`null`. -/
def objValues : Json → Except String (List Json)
  | .null => .error "TypeError: Object.values called on null"
  | .obj fs => .ok (fs.map (·.2))
  | .arr xs => .ok xs
  | .str s => .ok (s.data.map (fun c => .str (String.mk [c])))
  | _ => .ok []

/-- JavaScript string length: the number of UTF-16 code units (characters
outside the basic multilingual plane count twice). -/
def jsLen (s : String) : Nat :=
  s.data.foldl (fun n c => n + (if c.toNat < 65536 then 1 else 2)) 0

/-- An HTTP response body, as the adapters see it after `fetchHttp` has
turned the payload into text. `plain` is text that is not valid JSON (for
example an HTML page): `JSON.parse` throws on it. `jsonText j` is the
serialization of `j`: `JSON.parse` yields `j`. `hijacked j` is the
serialization of `j` preceded by the anti-hijacking prefix stripped by the
Google-Trends adapter; `JSON.parse` throws on it unless the prefix is
stripped first. -/
inductive BodyText where
  | plain (s : String)
  | jsonText (j : Json)
  | hijacked (j : Json)

/-- Model of `JSON.parse` on a response body. -/
def jsonParse : BodyText → Except String Json
  | .plain _ => .error "SyntaxError: Unexpected token in JSON"
  | .jsonText j => .ok j
  | .hijacked _ => .error "SyntaxError: Unexpected token ) in JSON"

/-- Model of `data.toString().replace(')]}\',', '')` in the trends adapter:
removes the anti-hijack prefix (serialized JSON is modelled as not
containing the prefix, so the replacement is the identity on it). -/
def stripTrendsPrefix : BodyText → BodyText
  | .hijacked j => .jsonText j
  | b => b

/-- The raw text of a body, used by the HTML-scraping paths. Serialized JSON
is modelled as containing no scrapable HTML markup, hence the empty text. -/
def bodyPlain : BodyText → String
  | .plain s => s
  | _ => ""

/-- Log levels of the optional logger callback. -/
inductive LogLevel where
  | info
  | warn
  | error
deriving DecidableEq

/-- One emitted log event: source tag, message, level. -/
abbrev LogEntry := String × String × LogLevel

/-- One cache entry: the cached queries with their expiry timestamp
(`Date.now() + cacheMinutes * 60000` at store time). -/
structure CacheEntry where
  queries : List String
  expires : Nat
deriving DecidableEq

/-- Engine configuration after the constructor's defaulting and clamping.
Sources are kept as raw identifier strings because `getFromSource`
dispatches on the string at run time (its `default` branch handles
unrecognized identifiers). -/
structure QueryDiversityConfig where
  sources : List String
  deduplicate : Bool
  mixStrategies : Bool
  maxQueriesPerSource : Nat
  cacheMinutes : Nat
deriving DecidableEq

/-- The external world of one engine invocation.

`http` is the injected HTTP client (`httpClient.request`), keyed by URL: it
either throws (`Except.error`) or yields a response body. `apiKey` is
`process.env.NEWS_API_KEY`. `redditPick` models `Math.floor(Math.random() *
subreddits.length)` (it is used modulo the shortlist length). `now` models
`Date.now()`, held constant within one invocation.

Modelled from the spec: `shuffleArray` is `Util.shuffleArray` from
`src/util/core/Utils`, which is not part of the provided sources; the spec
describes it as "a uniform shuffle utility over a sequence ... must be
substitutable for deterministic testing", so it is modelled as an injected
function, and theorems that need it assume it permutes its input. -/
structure Env where
  http : String → Except String BodyText
  apiKey : Option String
  redditPick : Nat
  shuffleArray : List String → List String
  now : Nat

/-- Observable engine state: the per-source cache plus the accumulated side
effects (issued request URLs and emitted log events, oldest first). -/
structure EngineState where
  cache : List (String × CacheEntry)
  requests : List String
  logs : List LogEntry

/-- The state of a freshly constructed engine. -/
def initialState : EngineState := ⟨[], [], []⟩

/-- Append one log event. -/
def logTo (st : EngineState) (source message : String) (level : LogLevel) : EngineState :=
  { st with logs := st.logs ++ [(source, message, level)] }

/-- Cache lookup (`Map.get`). -/
def cacheLookup (c : List (String × CacheEntry)) (k : String) : Option CacheEntry :=
  (c.find? (fun p => p.1 = k)).map (·.2)

/-- Cache store (`Map.set`): replaces an existing entry in place, otherwise
appends (JS `Map` preserves insertion order). -/
def cacheSet (c : List (String × CacheEntry)) (k : String) (v : CacheEntry) :
    List (String × CacheEntry) :=
  if c.any (fun p => p.1 = k) then c.map (fun p => if p.1 = k then (k, v) else p)
  else c ++ [(k, v)]

/-- Method `cleanExpiredCache`: delete every entry whose expiry has passed
(`now >= value.expires`). -/
def cleanExpiredCache (now : Nat) (c : List (String × CacheEntry)) :
    List (String × CacheEntry) :=
  c.filter (fun p => decide (now < p.2.expires))

/-- Method `clearCache`: purge all cached entries. -/
def clearCache (st : EngineState) : EngineState := { st with cache := [] }

theorem jsLen_empty : jsLen "" = 0 := rfl

theorem jsLen_foldl_ge (cs : List Char) (n : Nat) :
    n ≤ cs.foldl (fun n c => n + (if c.toNat < 65536 then 1 else 2)) n := by
  induction cs generalizing n with
  | nil => exact Nat.le_refl n
  | cons c cs ih =>
    refine Nat.le_trans ?_ (ih (n + (if c.toNat < 65536 then 1 else 2)))
    split <;> omega

theorem jsLen_ne_empty_of_pos {s : String} (h : 0 < jsLen s) : s ≠ "" := by
  intro he; subst he; simp [jsLen_empty] at h

theorem ne_empty_of_two_lt_jsLen {s : String} (h : 2 < jsLen s) : s ≠ "" :=
  jsLen_ne_empty_of_pos (by omega)

/-- The result of one adapter invocation: its returned value together with
the HTTP requests it issued and the log events it emitted, in order.
Adapters never read earlier state, so their effects are recorded as pure
output and appended to the state by the caller. -/
structure FetchOut where
  result : Except String (List String)
  requests : List String
  logs : List LogEntry

/-- Log event emitted by `fetchHttp` before rethrowing a transport error. -/
def httpFailLog (url e : String) : LogEntry :=
  ("QUERY-FETCH", "HTTP request failed for " ++ url ++ ": " ++ e, .error)

def trendsUrl : String := "https://trends.google.com/trends/api/dailytrends?geo=US"

def subreddits : List String :=
  ["news", "worldnews", "todayilearned", "askreddit", "technology"]

/-- URL of the randomly picked subreddit; `env.redditPick` models
`Math.floor(Math.random() * subreddits.length)`, reduced modulo the
shortlist length so it is always a valid index. -/
def redditUrl (env : Env) : String :=
  "https://www.reddit.com/r/" ++ subreddits.getD (env.redditPick % subreddits.length) "news"
    ++ "/hot.json?limit=15"

def newsApiUrl (apiKey : String) : String :=
  "https://newsapi.org/v2/top-headlines?country=us&pageSize=15&apiKey=" ++ apiKey

def bbcUrl : String := "https://www.bbc.com/news"

def cnEndpoint1 : String := "https://top.baidu.com/api/board?platform=wise&tab=realtime"

def cnEndpoint2 : String := "https://top.baidu.com/api/board?platform=pc&tab=realtime"

def cnHtmlUrl : String := "https://top.baidu.com/board?tab=realtime"

def wikipediaUrl : String :=
  "https://en.wikipedia.org/w/api.php?action=query&list=random&rnnamespace=0&rnlimit=15&format=json"

/-- Candidate title of one trends search entry: `search.title?.query`
(`search.title` throws on a `null` search; the optional chain then never
throws). Only string values are modelled, matching the API contract. -/
def trendsTitleQuery (search : Json) : Except String (Option String) := do
  let title ← jsAccess (some search) "title"
  match optAccess title "query" with
  | some (.str s) => pure (some s)
  | _ => pure none

/-- Body of the trends extraction loop: walk
`parsed.default.trendingSearchesDays || []`, then each
`item.trendingSearches || []`, pushing each truthy `search.title?.query`
(a truthy string is a nonempty string). -/
def trendsExtract (parsed : Json) : Except String (List String) := do
  let dflt ← jsAccess (some parsed) "default"
  let tsd ← jsAccess dflt "trendingSearchesDays"
  let days ← jsIterate (jsOrElse tsd (.arr []))
  let nested ← days.mapM (fun item => do
    let ts ← jsAccess (some item) "trendingSearches"
    let searches ← jsIterate (jsOrElse ts (.arr []))
    searches.mapM trendsTitleQuery)
  pure ((nested.flatten.filterMap id).filter (fun s => s != ""))

/-- The strip-parse-walk-cap part of `fetchGoogleTrends` (between the GET
and the `catch`). -/
def googleTrendsParse (body : BodyText) : Except String (List String) := do
  let parsed ← jsonParse (stripTrendsPrefix body)
  let qs ← trendsExtract parsed
  pure (qs.take 20)

/-- Method `fetchGoogleTrends` proper: the `try` around transport, parse and
walk; any error is caught and yields an empty list. -/
def fetchGoogleTrends (env : Env) : FetchOut :=
  match env.http trendsUrl with
  | .error e => ⟨.ok [], [trendsUrl], [httpFailLog trendsUrl e]⟩
  | .ok body =>
    match googleTrendsParse body with
    | .ok qs => ⟨.ok qs, [trendsUrl], []⟩
    | .error _ => ⟨.ok [], [trendsUrl], []⟩

/-- Candidate title of one reddit post: `post.data?.title`. -/
def redditTitle (post : Json) : Except String (Option String) := do
  let d ← jsAccess (some post) "data"
  match optAccess d "title" with
  | some (.str s) => pure (some s)
  | _ => pure none

/-- Walk `parsed.data?.children || []` and keep titles of length strictly
between 10 and 100. -/
def redditExtract (parsed : Json) : Except String (List String) := do
  let d ← jsAccess (some parsed) "data"
  let posts ← jsIterate (jsOrElse (optAccess d "children") (.arr []))
  let titles ← posts.mapM redditTitle
  pure ((titles.filterMap id).filter
    (fun t => t != "" && decide (10 < jsLen t) && decide (jsLen t < 100)))

/-- The parse-walk part of `fetchReddit` (between the GET and the
`catch`). -/
def redditParse (body : BodyText) : Except String (List String) := do
  let parsed ← jsonParse body
  redditExtract parsed

/-- Method `fetchReddit` proper: the `try` around transport, parse and walk;
any error is caught and yields an empty list. -/
def fetchReddit (env : Env) : FetchOut :=
  match env.http (redditUrl env) with
  | .error e => ⟨.ok [], [redditUrl env], [httpFailLog (redditUrl env) e]⟩
  | .ok body =>
    match redditParse body with
    | .ok qs => ⟨.ok qs, [redditUrl env], []⟩
    | .error _ => ⟨.ok [], [redditUrl env], []⟩

/-- Elements of a field value when that value is an array; models
`[...].filter(Array.isArray).flat()` applied to one candidate field. -/
def optArrElems : Option Json → List Json
  | some (.arr xs) => xs
  | _ => []

/-- The concatenated array-valued container fields
`content` / `items` / `list` / `data` of one card or entry; accessing a
field of a `null` entry throws. -/
def cnContainerFields (entry : Json) : Except String (List Json) := do
  let c ← jsAccess (some entry) "content"
  let i ← jsAccess (some entry) "items"
  let l ← jsAccess (some entry) "list"
  let d ← jsAccess (some entry) "data"
  pure (optArrElems c ++ optArrElems i ++ optArrElems l ++ optArrElems d)

mutual

/-- Structural size of a JSON value, used as the recursion-depth bound of
the unwrapping below. -/
def Json.weight : Json → Nat
  | .null => 1
  | .bool _ => 1
  | .num _ => 1
  | .str _ => 1
  | .arr xs => 1 + Json.weightList xs
  | .obj fs => 1 + Json.weightFields fs

/-- Structural size of a list of JSON values. -/
def Json.weightList : List Json → Nat
  | [] => 0
  | j :: js => 1 + Json.weight j + Json.weightList js

/-- Structural size of the field list of a JSON object. -/
def Json.weightFields : List (String × Json) → Nat
  | [] => 0
  | (_, j) :: fs => 1 + Json.weight j + Json.weightFields fs

end

/-- Method `unwrapCnNewsContainer`, with an explicit recursion-depth bound:
the JS recursion descends into elements of array-valued fields, each a
strictly smaller value, so the bound `Json.weight entry` used by
`unwrapCnNewsContainer` below is never exhausted. -/
def unwrapCnNewsAux : Nat → Json → Except String (List Json)
  | 0, _ => .error "recursion depth exhausted"
  | fuel + 1, entry => do
    let nested ← cnContainerFields entry
    if nested.isEmpty then pure [entry]
    else do
      let unwrapped ← nested.mapM (unwrapCnNewsAux fuel)
      pure unwrapped.flatten

/-- Recursively unwrap nested container fields, flattening arbitrarily
nested card structures; an entry with no array-valued container field is
itself an item. -/
def unwrapCnNewsContainer (entry : Json) : Except String (List Json) :=
  unwrapCnNewsAux (Json.weight entry) entry

def cnTitleKeys : List String :=
  ["query", "word", "keyword", "title", "name", "raw_title", "display_name",
   "show", "topic", "hotWord", "hotWordShort", "desc"]

/-- The length guard applied to every candidate CN title:
`value.length > 2 && value.length < 100` in UTF-16 code units. -/
def cnBounded (s : String) : Bool :=
  decide (2 < jsLen s) && decide (jsLen s < 100)

/-- JavaScript `typeof v === 'object'` (true for objects, arrays and
`null`). -/
def isObjectType : Json → Bool
  | .obj _ => true
  | .arr _ => true
  | .null => true
  | _ => false

/-- The inner loop of `pickCnNewsTitle`: probe the candidate keys one level
down inside a non-null object value; named access on a non-null object or
array never throws. -/
def cnScanNested (nested : Json) : List String → Option String
  | [] => none
  | k :: rest =>
    match optAccess (some nested) k with
    | some (.str s) => if cnBounded s then some s else cnScanNested nested rest
    | _ => cnScanNested nested rest

/-- The main loop of `pickCnNewsTitle` over the candidate keys: a string in
bounds is returned; a truthy object value is probed one level down; anything
else falls through to the next key. `item[key]` throws when `item` is
`null`. -/
def cnPickFromKeys (item : Json) : List String → Except String (Option String)
  | [] => .ok none
  | k :: rest => do
    let v ← jsAccess (some item) k
    match v with
    | some (.str s) =>
      if cnBounded s then pure (some s) else cnPickFromKeys item rest
    | some other =>
      if other.truthy && isObjectType other then
        match cnScanNested other cnTitleKeys with
        | some s => pure (some s)
        | none => cnPickFromKeys item rest
      else cnPickFromKeys item rest
    | none => cnPickFromKeys item rest

/-- The final fallback of `pickCnNewsTitle`: the first string-valued member
of `Object.values(item)` in bounds that does not look like a URL. -/
def cnFallbackValue : Json → Option String
  | .str s => if cnBounded s && !(s.startsWith "http") then some s else none
  | _ => none

/-- Method `pickCnNewsTitle`. -/
def pickCnNewsTitle (item : Json) : Except String (Option String) := do
  match ← cnPickFromKeys item cnTitleKeys with
  | some s => pure (some s)
  | none => do
    let vals ← objValues item
    pure (vals.findSome? cnFallbackValue)

/-- Optional-chain path access `parsed?.k1?.k2...`; never throws. -/
def cnPath (parsed : Json) (keys : List String) : Option Json :=
  keys.foldl (fun acc k => optAccess acc k) (some parsed)

/-- The final pick-and-filter step of `extractCnNewsFromJson`: pick a title
for every item and keep titles of length strictly between 2 and 100. (The
item-count warning log emitted inside `extractCnNewsFromJson` is not
modelled; it is observable only through the optional logger.) -/
def cnTitlesOf (combinedItems : List Json) : Except String (List String) := do
  let titles ← combinedItems.mapM pickCnNewsTitle
  pure ((titles.filterMap id).filter (fun t => t != "" && cnBounded t))

/-- The walking part of `extractCnNewsFromJson` continued: collect card
containers, recursively unwrap them, fall back to `data.list` /
`data.items` / `data.currentBoard.list` when no card items were found, then
pick and filter the titles. -/
def cnExtractQueries (parsed : Json) : Except String (List String) := do
  let cardsJ := jsOrElse
    (jsOr (cnPath parsed ["data", "cards"]) (cnPath parsed ["data", "cardList"])) (.arr [])
  let cards ← asArray cardsJ
  let itemLists ← cards.mapM (fun card => do
    let containers ← cnContainerFields card
    let unwrapped ← containers.mapM unwrapCnNewsContainer
    pure unwrapped.flatten)
  let items := itemLists.flatten
  let listFallback := jsOrElse
    (jsOr (cnPath parsed ["data", "list"])
      (jsOr (cnPath parsed ["data", "items"]) (cnPath parsed ["data", "currentBoard", "list"])))
    (.arr [])
  let combinedItems ← if items.isEmpty then asArray listFallback else pure items
  cnTitlesOf combinedItems

/-- Method `extractCnNewsFromJson`: parse the body and walk it; any parse or
walk error is caught and yields an empty list. -/
def extractCnNewsFromJson (body : BodyText) : List String :=
  match jsonParse body with
  | .error _ => []
  | .ok parsed =>
    match cnExtractQueries parsed with
    | .ok qs => qs
    | .error _ => []

/-- Model of `Array.from(new Set(xs))`: keep the first occurrence of every
element, in insertion order. -/
def setDedup (l : List String) : List String :=
  l.foldl (fun acc q => if acc.contains q then acc else acc ++ [q]) []

/-- Model of the repeated regex `replace(/<[^>]+>/g, '')`: drop every
maximal bracketed tag run. A `<` with no following `>` in the remainder (or
an immediately following `>`) is not a match and is kept verbatim. -/
def stripTags (s : String) : String :=
  match s.splitOn "<" with
  | [] => s
  | first :: rest =>
    first ++ String.join (rest.map (fun piece =>
      match piece.splitOn ">" with
      | [] => "<" ++ piece
      | [_] => "<" ++ piece
      | tag :: more => if tag = "" then "<" ++ piece else String.intercalate ">" more))

/-- Model of a global scan with a pattern of the shape
`<tag ... mark ... >(.*?)</tag>`: after every occurrence of the opening
mark, the attribute text runs to the first `>` and must contain the class
mark (empty mark means no class requirement), and the lazily captured text
runs to the first closing tag and may not span lines (`.` does not match a
newline). -/
def scanCaptures (openMark classMark closeTag : String) (html : String) : List String :=
  ((html.splitOn openMark).drop 1).filterMap (fun chunk =>
    match chunk.splitOn ">" with
    | [] => none
    | [_] => none
    | attrs :: rest =>
      if classMark = "" ∨ (attrs.splitOn classMark).length > 1 then
        match (String.intercalate ">" rest).splitOn closeTag with
        | [] => none
        | [_] => none
        | captured :: _ => if captured.contains '\n' then none else some captured
      else none)

/-- The `fetchNewsFallback` scraping step: capture `<h3>` headings, strip
inner tags, trim, keep texts of length strictly between 10 and 100, cap at
10 items. -/
def extractH3 (html : String) : List String :=
  (((scanCaptures "<h3" "" "</h3>" html).map (fun m => (stripTags m).trim)).filter
    (fun t => t != "" && decide (10 < jsLen t) && decide (jsLen t < 100))).take 10

/-- Method `extractCnNewsFromHtml`: two patterns (`div` with the
single-text-ellipsis class, `a` with a title class), strip tags, trim, keep
texts of length strictly between 2 and 100, deduplicate via a set. -/
def extractCnNewsFromHtml (html : String) : List String :=
  let pat1 := (scanCaptures "<div" "c-single-text-ellipsis" "</div>" html).filterMap (fun m =>
    let text := (stripTags m).trim
    if text != "" && cnBounded text then some text else none)
  let pat2 := (scanCaptures "<a" "title" "</a>" html).filterMap (fun m =>
    let text := (stripTags m).trim
    if text != "" && cnBounded text then some text else none)
  setDedup (pat1 ++ pat2)

/-- Log event of the `catch` in `fetchCnNews`. -/
def cnCatchLog (e : String) : LogEntry :=
  ("QUERY-DIVERSITY", "CN news fetch failed: " ++ e, .warn)

/-- Method `fetchCnNews`: try the two JSON endpoints in sequence, returning
the first non-empty extraction capped at `maxQueriesPerSource`; then fall
back to scraping the HTML board page. A transport error anywhere is caught
(after `fetchHttp` logs it) and yields an empty list without trying the
remaining endpoints. -/
def fetchCnNews (cfg : QueryDiversityConfig) (env : Env) : FetchOut :=
  match env.http cnEndpoint1 with
  | .error e => ⟨.ok [], [cnEndpoint1], [httpFailLog cnEndpoint1 e, cnCatchLog e]⟩
  | .ok body1 =>
    let q1 := extractCnNewsFromJson body1
    if !q1.isEmpty then ⟨.ok (q1.take cfg.maxQueriesPerSource), [cnEndpoint1], []⟩
    else
      match env.http cnEndpoint2 with
      | .error e =>
        ⟨.ok [], [cnEndpoint1, cnEndpoint2], [httpFailLog cnEndpoint2 e, cnCatchLog e]⟩
      | .ok body2 =>
        let q2 := extractCnNewsFromJson body2
        if !q2.isEmpty then
          ⟨.ok (q2.take cfg.maxQueriesPerSource), [cnEndpoint1, cnEndpoint2], []⟩
        else
          match env.http cnHtmlUrl with
          | .error e =>
            ⟨.ok [], [cnEndpoint1, cnEndpoint2, cnHtmlUrl],
              [httpFailLog cnHtmlUrl e, cnCatchLog e]⟩
          | .ok body3 =>
            let htmlQueries := extractCnNewsFromHtml (bodyPlain body3)
            ⟨.ok (htmlQueries.take cfg.maxQueriesPerSource),
              [cnEndpoint1, cnEndpoint2, cnHtmlUrl],
              if htmlQueries.isEmpty then
                [("QUERY-DIVERSITY", "CN news returned no items from JSON or HTML sources",
                  LogLevel.warn)]
              else []⟩

/-- Walk `parsed.articles || []` of the headlines API and keep titles longer
than 10. -/
def newsExtract (parsed : Json) : Except String (List String) := do
  let a ← jsAccess (some parsed) "articles"
  let articles ← asArray (jsOrElse a (.arr []))
  let titles ← articles.mapM (fun art => do
    let t ← jsAccess (some art) "title"
    pure (match t with | some (.str s) => some s | _ => none))
  pure ((titles.filterMap id).filter (fun t => t != "" && decide (10 < jsLen t)))

/-- Method `fetchNewsFallback`: scrape the BBC homepage headings; errors are
caught and yield an empty list. -/
def fetchNewsFallback (env : Env) : FetchOut :=
  match env.http bbcUrl with
  | .error e => ⟨.ok [], [bbcUrl], [httpFailLog bbcUrl e]⟩
  | .ok body => ⟨.ok (extractH3 (bodyPlain body)), [bbcUrl], []⟩

/-- Prefix the effect trace of a fetch with earlier effects. -/
def prependEffects (reqs : List String) (lgs : List LogEntry) (o : FetchOut) : FetchOut :=
  ⟨o.result, reqs ++ o.requests, lgs ++ o.logs⟩

/-- The parse-walk part of the API branch of `fetchNews`. -/
def newsParse (body : BodyText) : Except String (List String) := do
  let parsed ← jsonParse body
  newsExtract parsed

/-- Method `fetchNews`: with no (or an empty) API key, go straight to the
scraping fallback; otherwise query the headlines API, falling back to
scraping on any error. -/
def fetchNews (env : Env) : FetchOut :=
  match env.apiKey with
  | none => fetchNewsFallback env
  | some key =>
    if key = "" then fetchNewsFallback env
    else
      match env.http (newsApiUrl key) with
      | .error e =>
        prependEffects [newsApiUrl key] [httpFailLog (newsApiUrl key) e] (fetchNewsFallback env)
      | .ok body =>
        match newsParse body with
        | .ok qs => ⟨.ok qs, [newsApiUrl key], []⟩
        | .error _ => prependEffects [newsApiUrl key] [] (fetchNewsFallback env)

/-- Walk `parsed.query?.random || []` of the random-page API and keep titles
longer than 3. -/
def wikiExtract (parsed : Json) : Except String (List String) := do
  let q ← jsAccess (some parsed) "query"
  let pages ← asArray (jsOrElse (optAccess q "random") (.arr []))
  let titles ← pages.mapM (fun p => do
    let t ← jsAccess (some p) "title"
    pure (match t with | some (.str s) => some s | _ => none))
  pure ((titles.filterMap id).filter (fun t => t != "" && decide (3 < jsLen t)))

/-- The parse-walk part of `fetchWikipedia` (between the GET and the
`catch`). -/
def wikiParse (body : BodyText) : Except String (List String) := do
  let parsed ← jsonParse body
  wikiExtract parsed

/-- Method `fetchWikipedia` proper: the `try` around transport, parse and
walk; any error is caught and yields an empty list. -/
def fetchWikipedia (env : Env) : FetchOut :=
  match env.http wikipediaUrl with
  | .error e => ⟨.ok [], [wikipediaUrl], [httpFailLog wikipediaUrl e]⟩
  | .ok body =>
    match wikiParse body with
    | .ok qs => ⟨.ok qs, [wikipediaUrl], []⟩
    | .error _ => ⟨.ok [], [wikipediaUrl], []⟩

/-- The curated local fallback list, verbatim from `getLocalFallback`. -/
def fallbackQueries : List String :=
  ["weather forecast", "news today", "stock market", "sports scores",
   "movie reviews", "recipes", "travel destinations", "health tips",
   "technology news", "best restaurants near me", "how to cook pasta",
   "python tutorial", "world events", "climate change", "electric vehicles",
   "space exploration", "artificial intelligence", "cryptocurrency",
   "gaming news", "fashion trends", "fitness workout", "home improvement",
   "gardening tips", "pet care", "book recommendations", "music charts",
   "streaming shows", "historical events", "science discoveries",
   "education resources"]

/-- Method `getLocalFallback`: a shuffled slice of the curated list. -/
def getLocalFallback (env : Env) (count : Nat) : List String :=
  (env.shuffleArray fallbackQueries).take count

/-- The `switch (source)` dispatch inside `getFromSource`; the `default`
branch logs a warning and contributes nothing. -/
def sourceFetch (cfg : QueryDiversityConfig) (env : Env) (s : String) : FetchOut :=
  if s = "google-trends" then fetchGoogleTrends env
  else if s = "reddit" then fetchReddit env
  else if s = "news" then fetchNews env
  else if s = "cn-news" then fetchCnNews cfg env
  else if s = "wikipedia" then fetchWikipedia env
  else if s = "local-fallback" then ⟨.ok (getLocalFallback env 20), [], []⟩
  else ⟨.ok [], [], [("QUERY-DIVERSITY", "Unknown source: " ++ s, .warn)]⟩

/-- Append an adapter's effect trace to the engine state. -/
def applyOut (st : EngineState) (o : FetchOut) : EngineState :=
  { st with requests := st.requests ++ o.requests, logs := st.logs ++ o.logs }

/-- The cache-miss tail of `getFromSource`: invoke the adapter, log when it
returned nothing, cache the result when non-empty. -/
def getFromSourceFetch (cfg : QueryDiversityConfig) (env : Env) (source : String)
    (st : EngineState) : Except String (List String) × EngineState :=
  let o := sourceFetch cfg env source
  let st₂ := applyOut st o
  match o.result with
  | .error e => (.error e, st₂)
  | .ok queries =>
    if queries.isEmpty then
      (.ok queries,
        logTo st₂ "QUERY-DIVERSITY" ("No queries returned for source: " ++ source) .warn)
    else
      (.ok queries,
        { st₂ with cache :=
            cacheSet st₂.cache source ⟨queries, env.now + cfg.cacheMinutes * 60000⟩ })

/-- Method `getFromSource`: purge expired entries, return a cached entry
only while strictly before its expiry, otherwise invoke the adapter. -/
def getFromSource (cfg : QueryDiversityConfig) (env : Env) (source : String)
    (st : EngineState) : Except String (List String) × EngineState :=
  let st₁ := { st with cache := cleanExpiredCache env.now st.cache }
  match cacheLookup st₁.cache source with
  | some entry =>
    if env.now < entry.expires then (.ok entry.queries, st₁)
    else getFromSourceFetch cfg env source st₁
  | none => getFromSourceFetch cfg env source st₁

/-- The source loop of `fetchQueries`: per configured source, take at most
`maxQueriesPerSource` queries; a thrown error is caught and logged and the
source contributes nothing. -/
def collectAllQueries (cfg : QueryDiversityConfig) (env : Env) :
    List String → EngineState → List String × EngineState
  | [], st => ([], st)
  | s :: rest, st =>
    let p := getFromSource cfg env s st
    let next :=
      match p.1 with
      | .ok queries => (queries.take cfg.maxQueriesPerSource, p.2)
      | .error e =>
        ([], logTo p.2 "QUERY-DIVERSITY" ("Failed to fetch from " ++ s ++ ": " ++ e) .warn)
    let restOut := collectAllQueries cfg env rest next.2
    (next.1 ++ restOut.1, restOut.2)

/-- The loop body of `interleaveQueries`, indexed by the running position
`i`, the current `sourceIndex` and the accumulated result. An element is
pushed only when it is truthy and `i` lies in the current chunk window; the
window advances exactly when `i` is the last index of the current chunk. -/
def interleaveGo (targetCount chunkSize sourceCount : Nat) :
    List String → Nat → Nat → List String → List String
  | [], _, _, result => result
  | q :: rest, i, sourceIndex, result =>
    if targetCount ≤ result.length then result
    else
      interleaveGo targetCount chunkSize sourceCount rest (i + 1)
        (if i + 1 = sourceIndex * chunkSize + chunkSize then (sourceIndex + 1) % sourceCount
         else sourceIndex)
        (if q != "" && decide (sourceIndex * chunkSize ≤ i)
            && decide (i < sourceIndex * chunkSize + chunkSize) then result ++ [q]
         else result)

/-- Method `interleaveQueries` (`Math.ceil` of the integral
`maxQueriesPerSource` is itself). -/
def interleaveQueries (cfg : QueryDiversityConfig) (queries : List String)
    (targetCount : Nat) : List String :=
  let queriesPerSource := cfg.maxQueriesPerSource
  let sourceCount := cfg.sources.length
  if sourceCount = 0 ∨ queries.isEmpty then queries.take targetCount
  else (interleaveGo targetCount queriesPerSource sourceCount queries 0 0 []).take targetCount

/-- The deduplication step of `fetchQueries`. -/
def dedupStage (cfg : QueryDiversityConfig) (l : List String) : List String :=
  if cfg.deduplicate then setDedup l else l

/-- The interleaving step of `fetchQueries`, applied only when mixing is on
and more than one source is configured. -/
def mixStage (cfg : QueryDiversityConfig) (l : List String) (validCount : Nat) : List String :=
  if cfg.mixStrategies && decide (1 < cfg.sources.length) then interleaveQueries cfg l validCount
  else l

/-- Method `fetchQueries`: clamp the count to `[1,200]`, collect per-source
results, deduplicate, interleave, shuffle and truncate; an empty result
falls back to the curated local list. -/
def fetchQueries (cfg : QueryDiversityConfig) (env : Env) (count : Nat)
    (st : EngineState) : List String × EngineState :=
  let validCount := max 1 (min count 200)
  let collected := collectAllQueries cfg env cfg.sources st
  let final := mixStage cfg (dedupStage cfg collected.1) validCount
  let shuffled := (env.shuffleArray final).take validCount
  if shuffled.isEmpty then
    (getLocalFallback env validCount,
      logTo collected.2 "QUERY-DIVERSITY" "All sources failed, using local fallback" .warn)
  else (shuffled, collected.2)

/-- The caller-supplied part of the configuration
(`config?: Partial<QueryDiversityConfig>`); numeric fields are integers so
that the `|| default` and clamping behavior can be stated exactly. -/
structure ConfigOverrides where
  sources : Option (List String)
  deduplicate : Option Bool
  mixStrategies : Option Bool
  maxQueriesPerSource : Option Int
  cacheMinutes : Option Int

/-- JavaScript `v || dflt` over an optional number: an absent or zero value
(zero is falsy) selects the default. -/
def orDefaultNum (v : Option Int) (dflt : Int) : Int :=
  match v with
  | some n => if n = 0 then dflt else n
  | none => dflt

/-- The built-in default source set. -/
def defaultSources : List String := ["google-trends", "reddit", "local-fallback"]

/-- The constructor of `QueryDiversityEngine`: defaulting and clamping of
the caller-supplied configuration. It never throws. -/
def mkConfig (c : Option ConfigOverrides) : QueryDiversityConfig :=
  { sources :=
      match c.bind (·.sources) with
      | some l => if l.isEmpty then defaultSources else l
      | none => defaultSources
    deduplicate := decide (c.bind (·.deduplicate) ≠ some false)
    mixStrategies := decide (c.bind (·.mixStrategies) ≠ some false)
    maxQueriesPerSource :=
      (max 1 (min (orDefaultNum (c.bind (·.maxQueriesPerSource)) 10) 50)).toNat
    cacheMinutes :=
      (max 1 (min (orDefaultNum (c.bind (·.cacheMinutes)) 30) 1440)).toNat }

theorem exceptBind_ok {α β : Type} {x : Except String α} {f : α → Except String β} {b : β} :
    x >>= f = .ok b ↔ ∃ a, x = .ok a ∧ f a = .ok b := by
  cases x <;> simp [Bind.bind, Except.bind]

/-- The part appended by `setDedup` when it starts from accumulator `acc`. -/
def dedupNew (acc : List String) : List String → List String
  | [] => []
  | q :: l => if acc.contains q then dedupNew acc l else q :: dedupNew (acc ++ [q]) l

theorem dedupNew_cons_mem {acc : List String} {q : String} (h : q ∈ acc) (l : List String) :
    dedupNew acc (q :: l) = dedupNew acc l := by
  simp [dedupNew, h]

theorem dedupNew_cons_not_mem {acc : List String} {q : String} (h : q ∉ acc)
    (l : List String) :
    dedupNew acc (q :: l) = q :: dedupNew (acc ++ [q]) l := by
  simp [dedupNew, h]

theorem setDedup_foldl_eq (l : List String) : ∀ acc : List String,
    l.foldl (fun acc q => if acc.contains q then acc else acc ++ [q]) acc
      = acc ++ dedupNew acc l := by
  induction l with
  | nil => intro acc; simp [dedupNew]
  | cons q l ih =>
    intro acc
    by_cases h : q ∈ acc
    · rw [List.foldl_cons, if_pos (by simpa using h), dedupNew_cons_mem h, ih]
    · rw [List.foldl_cons, if_neg (by simpa using h), dedupNew_cons_not_mem h, ih (acc ++ [q])]
      simp

theorem setDedup_eq_dedupNew (l : List String) : setDedup l = dedupNew [] l := by
  have := setDedup_foldl_eq l []
  simpa [setDedup] using this

theorem dedupNew_not_mem_acc (l : List String) : ∀ acc a, a ∈ dedupNew acc l → a ∉ acc := by
  induction l with
  | nil => intro acc a h; simp [dedupNew] at h
  | cons q l ih =>
    intro acc a h
    by_cases hq : q ∈ acc
    · exact ih acc a (by rwa [dedupNew_cons_mem hq] at h)
    · rw [dedupNew_cons_not_mem hq] at h
      rcases List.mem_cons.mp h with rfl | h
      · exact hq
      · intro hc
        exact ih (acc ++ [q]) a h (by simp [hc])

theorem dedupNew_nodup (l : List String) : ∀ acc, (dedupNew acc l).Nodup := by
  induction l with
  | nil => intro acc; simp [dedupNew]
  | cons q l ih =>
    intro acc
    by_cases hq : q ∈ acc
    · rw [dedupNew_cons_mem hq]; exact ih acc
    · rw [dedupNew_cons_not_mem hq]
      refine List.nodup_cons.mpr ⟨fun hmem => ?_, ih (acc ++ [q])⟩
      exact dedupNew_not_mem_acc l (acc ++ [q]) q hmem (by simp)

theorem dedupNew_sublist (l : List String) : ∀ acc, (dedupNew acc l).Sublist l := by
  induction l with
  | nil => intro acc; simp [dedupNew]
  | cons q l ih =>
    intro acc
    by_cases hq : q ∈ acc
    · rw [dedupNew_cons_mem hq]; exact (ih acc).cons q
    · rw [dedupNew_cons_not_mem hq]; exact (ih (acc ++ [q])).cons₂ q

theorem dedupNew_mem (l : List String) : ∀ acc a,
    a ∈ dedupNew acc l ↔ a ∈ l ∧ a ∉ acc := by
  induction l with
  | nil => intro acc a; simp [dedupNew]
  | cons q l ih =>
    intro acc a
    by_cases hq : q ∈ acc
    · rw [dedupNew_cons_mem hq, ih, List.mem_cons]
      constructor
      · rintro ⟨h1, h2⟩; exact ⟨Or.inr h1, h2⟩
      · rintro ⟨h1 | h1, h2⟩
        · subst h1; exact absurd hq h2
        · exact ⟨h1, h2⟩
    · rw [dedupNew_cons_not_mem hq, List.mem_cons, ih, List.mem_cons]
      constructor
      · rintro (rfl | ⟨h1, h2⟩)
        · exact ⟨Or.inl rfl, hq⟩
        · simp only [List.mem_append, List.mem_singleton, not_or] at h2
          exact ⟨Or.inr h1, h2.1⟩
      · rintro ⟨rfl | h1, h2⟩
        · exact Or.inl rfl
        · by_cases haq : a = q
          · exact Or.inl haq
          · exact Or.inr ⟨h1, by simp [h2, haq]⟩

theorem dedupNew_congr_acc (l : List String) : ∀ acc acc',
    (∀ a, a ∈ acc ↔ a ∈ acc') → dedupNew acc l = dedupNew acc' l := by
  induction l with
  | nil => intro acc acc' _; simp [dedupNew]
  | cons q l ih =>
    intro acc acc' hequiv
    by_cases h : q ∈ acc
    · rw [dedupNew_cons_mem h, dedupNew_cons_mem ((hequiv q).mp h)]
      exact ih acc acc' hequiv
    · rw [dedupNew_cons_not_mem h, dedupNew_cons_not_mem (fun hc => h ((hequiv q).mpr hc))]
      refine congrArg _ (ih _ _ fun a => ?_)
      simp [hequiv a]

theorem dedupNew_filter (l : List String) : ∀ acc x,
    dedupNew (acc ++ [x]) l = dedupNew acc (l.filter (fun q => q != x)) := by
  induction l with
  | nil => intro acc x; simp [dedupNew]
  | cons q l ih =>
    intro acc x
    by_cases hqx : q = x
    · subst hqx
      rw [dedupNew_cons_mem (by simp), List.filter_cons, if_neg (by simp)]
      exact ih acc q
    · have hfq : (q != x) = true := by simp [bne, hqx]
      rw [List.filter_cons, if_pos (by simp [hfq])]
      by_cases hq : q ∈ acc
      · rw [dedupNew_cons_mem (by simp [hq]), dedupNew_cons_mem hq]
        exact ih acc x
      · rw [dedupNew_cons_not_mem (by simp [hq, Ne.symm hqx, hqx]),
          dedupNew_cons_not_mem hq]
        refine congrArg _ ?_
        rw [← ih (acc ++ [q]) x]
        exact dedupNew_congr_acc l _ _ (fun a => by
          simp only [List.mem_append, List.mem_singleton, List.append_assoc,
            List.cons_append, List.nil_append, List.mem_cons, List.not_mem_nil, or_false]
          tauto)

theorem setDedup_nodup (l : List String) : (setDedup l).Nodup := by
  rw [setDedup_eq_dedupNew]; exact dedupNew_nodup l []

theorem setDedup_sublist (l : List String) : (setDedup l).Sublist l := by
  rw [setDedup_eq_dedupNew]; exact dedupNew_sublist l []

theorem setDedup_mem {l : List String} {a : String} : a ∈ setDedup l ↔ a ∈ l := by
  rw [setDedup_eq_dedupNew, dedupNew_mem]; simp

theorem setDedup_cons (x : String) (l : List String) :
    setDedup (x :: l) = x :: setDedup (l.filter (fun q => q != x)) := by
  rw [setDedup_eq_dedupNew, setDedup_eq_dedupNew, dedupNew_cons_not_mem (by simp)]
  refine congrArg _ ?_
  simpa using dedupNew_filter l [] x

theorem setDedup_eq_self_of_nodup {l : List String} (h : l.Nodup) : setDedup l = l := by
  induction l with
  | nil => rfl
  | cons x l ih =>
    rcases List.nodup_cons.mp h with ⟨hx, hl⟩
    rw [setDedup_cons]
    have hf : l.filter (fun q => q != x) = l := by
      refine List.filter_eq_self.mpr fun a ha => ?_
      simp only [bne_iff_ne, ne_eq, decide_eq_true_eq]
      exact fun hax => hx (hax ▸ ha)
    rw [hf, ih hl]

theorem interleaveGo_nil (t chunk sc i si : Nat) (acc : List String) :
    interleaveGo t chunk sc [] i si acc = acc := rfl

theorem interleaveGo_stuck (t chunk sc : Nat) (rest : List String) :
    ∀ i acc, chunk ≤ i → interleaveGo t chunk sc rest i 0 acc = acc := by
  induction rest with
  | nil => intro i acc _; rfl
  | cons q rest ih =>
    intro i acc hi
    rw [interleaveGo]
    by_cases ht : t ≤ acc.length
    · rw [if_pos ht]
    · rw [if_neg ht]
      have h1 : ¬ (i < 0 * chunk + chunk) := by
        simp only [Nat.zero_mul, Nat.zero_add]; omega
      have h2 : ¬ (i + 1 = 0 * chunk + chunk) := by
        simp only [Nat.zero_mul, Nat.zero_add]; omega
      rw [if_neg h2, decide_eq_false h1]
      simp only [Bool.and_false]
      rw [if_neg (by simp)]
      exact ih (i + 1) acc (by omega)

theorem interleaveGo_run (t chunk sc : Nat) (hsc : 1 ≤ sc) (rest : List String) :
    ∀ i acc, i < sc * chunk →
      interleaveGo t chunk sc rest i (i / chunk) acc
        = acc ++ ((rest.take (sc * chunk - i)).filter (fun q => q != "")).take
            (t - acc.length) := by
  induction rest with
  | nil => intro i acc hi; simp [interleaveGo]
  | cons q rest ih =>
    intro i acc hi
    have hchunk : 0 < chunk := by
      rcases Nat.eq_zero_or_pos chunk with h | h
      · subst h; simp at hi
      · exact h
    have hlow : i / chunk * chunk ≤ i := Nat.div_mul_le_self i chunk
    have hhigh : i < i / chunk * chunk + chunk := by
      have hmod := Nat.mod_lt i hchunk
      have hdm := Nat.div_add_mod i chunk
      calc i = chunk * (i / chunk) + i % chunk := hdm.symm
        _ < chunk * (i / chunk) + chunk := Nat.add_lt_add_left hmod _
        _ = i / chunk * chunk + chunk := by rw [Nat.mul_comm]
    have hq1 : (i / chunk + 1) * chunk = i / chunk * chunk + chunk := by
      rw [Nat.succ_mul]
    have htake : sc * chunk - i = (sc * chunk - (i + 1)) + 1 := by omega
    rw [interleaveGo]
    by_cases ht : t ≤ acc.length
    · rw [if_pos ht]
      have hz : t - acc.length = 0 := by omega
      simp [hz]
    · rw [if_neg ht]
      rw [decide_eq_true hlow, decide_eq_true hhigh]
      simp only [Bool.and_true]
      have hstep : t - acc.length = (t - (acc.length + 1)) + 1 := by omega
      rw [htake, List.take_succ_cons]
      simp only [List.filter_cons]
      by_cases hq : (q != "") = true
      · rw [if_pos hq, if_pos hq, hstep, List.take_succ_cons]
        by_cases hadv : i + 1 = i / chunk * chunk + chunk
        · rw [if_pos hadv]
          have hdiv : (i + 1) / chunk = i / chunk + 1 := by
            rw [hadv, ← hq1]
            exact Nat.mul_div_cancel _ hchunk
          rcases Nat.lt_or_ge (i + 1) (sc * chunk) with hlt | hge
          · have hlt' : i / chunk + 1 < sc :=
              Nat.lt_of_mul_lt_mul_right (by rw [hq1, ← hadv]; exact hlt)
            rw [Nat.mod_eq_of_lt hlt']
            have hrec := ih (i + 1) (acc ++ [q]) hlt
            rw [hdiv] at hrec
            rw [hrec]
            simp [List.append_assoc, List.length_append]
          · have heq : i + 1 = sc * chunk := le_antisymm (Nat.succ_le_of_lt hi) hge
            have hsceq : i / chunk + 1 = sc := by
              refine Nat.eq_of_mul_eq_mul_right hchunk ?_
              rw [hq1, ← hadv, heq]
            rw [hsceq, Nat.mod_self]
            rw [interleaveGo_stuck t chunk sc rest (i + 1) _
              (by rw [heq]; exact Nat.le_mul_of_pos_left chunk (by omega))]
            have hz : sc * chunk - (i + 1) = 0 := by omega
            simp [hz]
        · rw [if_neg hadv]
          have hlt2 : i + 1 < i / chunk * chunk + chunk :=
            lt_of_le_of_ne (Nat.succ_le_of_lt hhigh) hadv
          have hdiv2 : (i + 1) / chunk = i / chunk :=
            Nat.div_eq_of_lt_le (le_trans hlow (Nat.le_succ i)) (by rw [hq1]; exact hlt2)
          have h2 : i + 1 < sc * chunk := by
            rcases Nat.lt_or_ge (i + 1) (sc * chunk) with h | h
            · exact h
            · exfalso
              have heq : i + 1 = sc * chunk := le_antisymm (Nat.succ_le_of_lt hi) h
              have hds : (i + 1) / chunk = sc := by
                rw [heq]; exact Nat.mul_div_cancel sc hchunk
              rw [hdiv2] at hds
              rw [hds] at hlow
              exact absurd hi (not_lt.mpr hlow)
          have hrec := ih (i + 1) (acc ++ [q]) h2
          rw [hdiv2] at hrec
          rw [hrec]
          simp [List.append_assoc, List.length_append]
      · rw [if_neg hq, if_neg hq]
        by_cases hadv : i + 1 = i / chunk * chunk + chunk
        · rw [if_pos hadv]
          have hdiv : (i + 1) / chunk = i / chunk + 1 := by
            rw [hadv, ← hq1]
            exact Nat.mul_div_cancel _ hchunk
          rcases Nat.lt_or_ge (i + 1) (sc * chunk) with hlt | hge
          · have hlt' : i / chunk + 1 < sc :=
              Nat.lt_of_mul_lt_mul_right (by rw [hq1, ← hadv]; exact hlt)
            rw [Nat.mod_eq_of_lt hlt']
            have hrec := ih (i + 1) acc hlt
            rw [hdiv] at hrec
            rw [hrec]
          · have heq : i + 1 = sc * chunk := le_antisymm (Nat.succ_le_of_lt hi) hge
            have hsceq : i / chunk + 1 = sc := by
              refine Nat.eq_of_mul_eq_mul_right hchunk ?_
              rw [hq1, ← hadv, heq]
            rw [hsceq, Nat.mod_self]
            rw [interleaveGo_stuck t chunk sc rest (i + 1) _
              (by rw [heq]; exact Nat.le_mul_of_pos_left chunk (by omega))]
            have hz : sc * chunk - (i + 1) = 0 := by omega
            simp [hz]
        · rw [if_neg hadv]
          have hlt2 : i + 1 < i / chunk * chunk + chunk :=
            lt_of_le_of_ne (Nat.succ_le_of_lt hhigh) hadv
          have hdiv2 : (i + 1) / chunk = i / chunk :=
            Nat.div_eq_of_lt_le (le_trans hlow (Nat.le_succ i)) (by rw [hq1]; exact hlt2)
          have h2 : i + 1 < sc * chunk := by
            rcases Nat.lt_or_ge (i + 1) (sc * chunk) with h | h
            · exact h
            · exfalso
              have heq : i + 1 = sc * chunk := le_antisymm (Nat.succ_le_of_lt hi) h
              have hds : (i + 1) / chunk = sc := by
                rw [heq]; exact Nat.mul_div_cancel sc hchunk
              rw [hdiv2] at hds
              rw [hds] at hlow
              exact absurd hi (not_lt.mpr hlow)
          have hrec := ih (i + 1) acc h2
          rw [hdiv2] at hrec
          rw [hrec]

theorem interleaveQueries_degenerate (cfg : QueryDiversityConfig) (queries : List String)
    (t : Nat) (h : cfg.sources.length = 0 ∨ queries.isEmpty) :
    interleaveQueries cfg queries t = queries.take t := by
  unfold interleaveQueries
  rw [if_pos h]

theorem interleaveQueries_closed (cfg : QueryDiversityConfig) (queries : List String)
    (t : Nat) (hsc : 1 ≤ cfg.sources.length) (hq : queries ≠ []) :
    interleaveQueries cfg queries t
      = ((queries.take (cfg.sources.length * cfg.maxQueriesPerSource)).filter
          (fun q => q != "")).take t := by
  unfold interleaveQueries
  rw [if_neg (by
    rw [not_or]
    exact ⟨by omega, by simp [List.isEmpty_iff, hq]⟩)]
  rcases Nat.eq_zero_or_pos cfg.maxQueriesPerSource with hch | hch
  · rw [interleaveGo_stuck _ _ _ _ 0 [] (by omega)]
    simp [hch]
  · have h0 : 0 < cfg.sources.length * cfg.maxQueriesPerSource :=
      Nat.mul_pos (by omega) hch
    have hrun := interleaveGo_run t cfg.maxQueriesPerSource cfg.sources.length hsc
      queries 0 [] h0
    rw [Nat.zero_div] at hrun
    rw [hrun]
    simp [List.take_take]

theorem interleaveQueries_sublist (cfg : QueryDiversityConfig) (queries : List String)
    (t : Nat) : (interleaveQueries cfg queries t).Sublist queries := by
  by_cases h : cfg.sources.length = 0 ∨ queries.isEmpty
  · rw [interleaveQueries_degenerate cfg queries t h]
    exact List.take_sublist t queries
  · push_neg at h
    rw [interleaveQueries_closed cfg queries t (by omega) (by
      rcases h with ⟨_, h2⟩
      simpa [List.isEmpty_iff] using h2)]
    exact (List.take_sublist _ _).trans ((List.filter_sublist _).trans
      (List.take_sublist _ _))

theorem mixStage_sublist (cfg : QueryDiversityConfig) (l : List String) (vc : Nat) :
    (mixStage cfg l vc).Sublist l := by
  unfold mixStage
  by_cases h : (cfg.mixStrategies && decide (1 < cfg.sources.length)) = true
  · rw [if_pos h]; exact interleaveQueries_sublist cfg l vc
  · rw [if_neg h]

theorem dedupStage_mem {cfg : QueryDiversityConfig} {l : List String} {a : String}
    (h : a ∈ dedupStage cfg l) : a ∈ l := by
  unfold dedupStage at h
  by_cases hd : cfg.deduplicate = true
  · rw [if_pos hd] at h; exact setDedup_mem.mp h
  · rwa [if_neg hd] at h

theorem prependEffects_result (reqs : List String) (lgs : List LogEntry) (o : FetchOut) :
    (prependEffects reqs lgs o).result = o.result := rfl

theorem fetchGoogleTrends_isOk (env : Env) :
    ∃ qs, (fetchGoogleTrends env).result = .ok qs := by
  unfold fetchGoogleTrends
  cases henv : env.http trendsUrl with
  | error e => exact ⟨[], rfl⟩
  | ok body =>
    cases hp : googleTrendsParse body with
    | ok qs => exact ⟨qs, by simp [hp]⟩
    | error e => exact ⟨[], by simp [hp]⟩

theorem fetchReddit_isOk (env : Env) : ∃ qs, (fetchReddit env).result = .ok qs := by
  unfold fetchReddit
  cases henv : env.http (redditUrl env) with
  | error e => exact ⟨[], rfl⟩
  | ok body =>
    cases hp : redditParse body with
    | ok qs => exact ⟨qs, by simp [hp]⟩
    | error e => exact ⟨[], by simp [hp]⟩

theorem fetchNewsFallback_isOk (env : Env) :
    ∃ qs, (fetchNewsFallback env).result = .ok qs := by
  unfold fetchNewsFallback
  cases henv : env.http bbcUrl with
  | error e => exact ⟨[], rfl⟩
  | ok body => exact ⟨extractH3 (bodyPlain body), rfl⟩

theorem fetchNews_isOk (env : Env) : ∃ qs, (fetchNews env).result = .ok qs := by
  unfold fetchNews
  cases hk : env.apiKey with
  | none => exact fetchNewsFallback_isOk env
  | some key =>
    dsimp only
    by_cases hkey : key = ""
    · rw [if_pos hkey]; exact fetchNewsFallback_isOk env
    · rw [if_neg hkey]
      cases henv : env.http (newsApiUrl key) with
      | error e =>
        rcases fetchNewsFallback_isOk env with ⟨qs, hqs⟩
        exact ⟨qs, by rw [prependEffects_result]; exact hqs⟩
      | ok body =>
        cases hp : newsParse body with
        | ok qs => exact ⟨qs, by simp [hp]⟩
        | error e =>
          rcases fetchNewsFallback_isOk env with ⟨qs, hqs⟩
          refine ⟨qs, ?_⟩
          simp only [hp]
          rw [prependEffects_result]
          exact hqs

theorem fetchCnNews_isOk (cfg : QueryDiversityConfig) (env : Env) :
    ∃ qs, (fetchCnNews cfg env).result = .ok qs := by
  unfold fetchCnNews
  cases h1 : env.http cnEndpoint1 with
  | error e => exact ⟨[], rfl⟩
  | ok b1 =>
    simp only
    by_cases hq1 : (!(extractCnNewsFromJson b1).isEmpty) = true
    · rw [if_pos hq1]; exact ⟨_, rfl⟩
    · rw [if_neg hq1]
      cases h2 : env.http cnEndpoint2 with
      | error e => exact ⟨[], rfl⟩
      | ok b2 =>
        simp only
        by_cases hq2 : (!(extractCnNewsFromJson b2).isEmpty) = true
        · rw [if_pos hq2]; exact ⟨_, rfl⟩
        · rw [if_neg hq2]
          cases h3 : env.http cnHtmlUrl with
          | error e => exact ⟨[], rfl⟩
          | ok b3 => exact ⟨_, rfl⟩

theorem fetchWikipedia_isOk (env : Env) : ∃ qs, (fetchWikipedia env).result = .ok qs := by
  unfold fetchWikipedia
  cases henv : env.http wikipediaUrl with
  | error e => exact ⟨[], rfl⟩
  | ok body =>
    cases hp : wikiParse body with
    | ok qs => exact ⟨qs, by simp [hp]⟩
    | error e => exact ⟨[], by simp [hp]⟩

theorem sourceFetch_isOk (cfg : QueryDiversityConfig) (env : Env) (s : String) :
    ∃ qs, (sourceFetch cfg env s).result = .ok qs := by
  unfold sourceFetch
  split_ifs
  · exact fetchGoogleTrends_isOk env
  · exact fetchReddit_isOk env
  · exact fetchNews_isOk env
  · exact fetchCnNews_isOk cfg env
  · exact fetchWikipedia_isOk env
  · exact ⟨_, rfl⟩
  · exact ⟨[], rfl⟩

theorem getFromSourceFetch_isOk (cfg : QueryDiversityConfig) (env : Env) (s : String)
    (st : EngineState) : ∃ qs st', getFromSourceFetch cfg env s st = (.ok qs, st') := by
  unfold getFromSourceFetch
  dsimp only
  rcases sourceFetch_isOk cfg env s with ⟨qs, hqs⟩
  rw [hqs]
  dsimp only
  by_cases h : qs.isEmpty = true
  · rw [if_pos h]; exact ⟨qs, _, rfl⟩
  · rw [if_neg h]; exact ⟨qs, _, rfl⟩

theorem getFromSource_isOk (cfg : QueryDiversityConfig) (env : Env) (s : String)
    (st : EngineState) : ∃ qs st', getFromSource cfg env s st = (.ok qs, st') := by
  unfold getFromSource
  dsimp only
  cases hc : cacheLookup (cleanExpiredCache env.now st.cache) s with
  | none =>
    simp only [hc]
    exact getFromSourceFetch_isOk cfg env s _
  | some entry =>
    simp only [hc]
    by_cases ht : env.now < entry.expires
    · rw [if_pos ht]; exact ⟨entry.queries, _, rfl⟩
    · rw [if_neg ht]; exact getFromSourceFetch_isOk cfg env s _

/-- The assumption, from the spec, that the injected shuffle utility
permutes its input. -/
def shuffleIsPerm (env : Env) : Prop := ∀ l : List String, (env.shuffleArray l).Perm l

theorem cnBounded_spec {s : String} (h : cnBounded s = true) :
    2 < jsLen s ∧ jsLen s < 100 := by
  unfold cnBounded at h
  simp only [Bool.and_eq_true, decide_eq_true_eq] at h
  exact h

theorem trendsExtract_strings {parsed : Json} {l : List String}
    (h : trendsExtract parsed = .ok l) : ∀ q ∈ l, q ≠ "" := by
  unfold trendsExtract at h
  rcases exceptBind_ok.mp h with ⟨dflt, _, h⟩
  rcases exceptBind_ok.mp h with ⟨tsd, _, h⟩
  rcases exceptBind_ok.mp h with ⟨days, _, h⟩
  rcases exceptBind_ok.mp h with ⟨nested, _, h⟩
  simp only [pure, Except.pure, Except.ok.injEq] at h
  subst h
  intro q hq
  have := (List.mem_filter.mp hq).2
  simpa [bne_iff_ne] using this

theorem googleTrendsParse_strings {body : BodyText} {qs : List String}
    (h : googleTrendsParse body = .ok qs) : ∀ q ∈ qs, q ≠ "" := by
  unfold googleTrendsParse at h
  rcases exceptBind_ok.mp h with ⟨parsed, _, h⟩
  rcases exceptBind_ok.mp h with ⟨l, hl, h⟩
  simp only [pure, Except.pure, Except.ok.injEq] at h
  subst h
  intro q hq
  exact trendsExtract_strings hl q ((List.take_sublist _ _).subset hq)

theorem redditExtract_strings {parsed : Json} {l : List String}
    (h : redditExtract parsed = .ok l) : ∀ q ∈ l, q ≠ "" := by
  unfold redditExtract at h
  rcases exceptBind_ok.mp h with ⟨d, _, h⟩
  rcases exceptBind_ok.mp h with ⟨posts, _, h⟩
  rcases exceptBind_ok.mp h with ⟨titles, _, h⟩
  simp only [pure, Except.pure, Except.ok.injEq] at h
  subst h
  intro q hq
  have := (List.mem_filter.mp hq).2
  simp only [Bool.and_eq_true, bne_iff_ne, ne_eq] at this
  exact this.1.1

theorem redditParse_strings {body : BodyText} {qs : List String}
    (h : redditParse body = .ok qs) : ∀ q ∈ qs, q ≠ "" := by
  unfold redditParse at h
  rcases exceptBind_ok.mp h with ⟨parsed, _, h⟩
  exact redditExtract_strings h

theorem newsExtract_strings {parsed : Json} {l : List String}
    (h : newsExtract parsed = .ok l) : ∀ q ∈ l, q ≠ "" := by
  unfold newsExtract at h
  rcases exceptBind_ok.mp h with ⟨a, _, h⟩
  rcases exceptBind_ok.mp h with ⟨articles, _, h⟩
  rcases exceptBind_ok.mp h with ⟨titles, _, h⟩
  simp only [pure, Except.pure, Except.ok.injEq] at h
  subst h
  intro q hq
  have := (List.mem_filter.mp hq).2
  simp only [Bool.and_eq_true, bne_iff_ne, ne_eq] at this
  exact this.1

theorem newsParse_strings {body : BodyText} {qs : List String}
    (h : newsParse body = .ok qs) : ∀ q ∈ qs, q ≠ "" := by
  unfold newsParse at h
  rcases exceptBind_ok.mp h with ⟨parsed, _, h⟩
  exact newsExtract_strings h

theorem wikiExtract_strings {parsed : Json} {l : List String}
    (h : wikiExtract parsed = .ok l) : ∀ q ∈ l, q ≠ "" := by
  unfold wikiExtract at h
  rcases exceptBind_ok.mp h with ⟨a, _, h⟩
  rcases exceptBind_ok.mp h with ⟨pages, _, h⟩
  rcases exceptBind_ok.mp h with ⟨titles, _, h⟩
  simp only [pure, Except.pure, Except.ok.injEq] at h
  subst h
  intro q hq
  have := (List.mem_filter.mp hq).2
  simp only [Bool.and_eq_true, bne_iff_ne, ne_eq] at this
  exact this.1

theorem wikiParse_strings {body : BodyText} {qs : List String}
    (h : wikiParse body = .ok qs) : ∀ q ∈ qs, q ≠ "" := by
  unfold wikiParse at h
  rcases exceptBind_ok.mp h with ⟨parsed, _, h⟩
  exact wikiExtract_strings h

theorem extractH3_strings (html : String) : ∀ q ∈ extractH3 html, q ≠ "" := by
  intro q hq
  unfold extractH3 at hq
  have := (List.mem_filter.mp ((List.take_sublist _ _).subset hq)).2
  simp only [Bool.and_eq_true, bne_iff_ne, ne_eq] at this
  exact this.1.1

theorem cnTitlesOf_strings {items : List Json} {l : List String}
    (h : cnTitlesOf items = .ok l) :
    ∀ q ∈ l, q ≠ "" ∧ 2 < jsLen q ∧ jsLen q < 100 := by
  unfold cnTitlesOf at h
  rcases exceptBind_ok.mp h with ⟨titles, _, h⟩
  simp only [pure, Except.pure, Except.ok.injEq] at h
  subst h
  intro q hq
  have := (List.mem_filter.mp hq).2
  simp only [Bool.and_eq_true, bne_iff_ne, ne_eq] at this
  exact ⟨this.1, cnBounded_spec this.2⟩

theorem cnExtractQueries_strings {parsed : Json} {l : List String}
    (h : cnExtractQueries parsed = .ok l) :
    ∀ q ∈ l, q ≠ "" ∧ 2 < jsLen q ∧ jsLen q < 100 := by
  unfold cnExtractQueries at h
  rcases exceptBind_ok.mp h with ⟨cards, _, h⟩
  rcases exceptBind_ok.mp h with ⟨itemLists, _, h⟩
  dsimp only at h
  by_cases hempty : itemLists.flatten.isEmpty = true
  · rw [if_pos hempty] at h
    rcases exceptBind_ok.mp h with ⟨combined, _, h⟩
    exact cnTitlesOf_strings h
  · rw [if_neg hempty] at h
    rcases exceptBind_ok.mp h with ⟨combined, _, h⟩
    exact cnTitlesOf_strings h

theorem extractCnNewsFromJson_strings (body : BodyText) :
    ∀ q ∈ extractCnNewsFromJson body, q ≠ "" ∧ 2 < jsLen q ∧ jsLen q < 100 := by
  intro q hq
  unfold extractCnNewsFromJson at hq
  cases hp : jsonParse body with
  | error e => rw [hp] at hq; simp at hq
  | ok parsed =>
    rw [hp] at hq
    dsimp only at hq
    cases hx : cnExtractQueries parsed with
    | ok qs =>
      rw [hx] at hq
      exact cnExtractQueries_strings hx q hq
    | error e => rw [hx] at hq; simp at hq

theorem extractCnNewsFromHtml_strings (html : String) :
    ∀ q ∈ extractCnNewsFromHtml html, q ≠ "" ∧ 2 < jsLen q ∧ jsLen q < 100 := by
  intro q hq
  unfold extractCnNewsFromHtml at hq
  have hq' := setDedup_mem.mp hq
  rcases List.mem_append.mp hq' with hmem | hmem <;>
  · rcases List.mem_filterMap.mp hmem with ⟨m, _, hm⟩
    by_cases hcond : ((stripTags m).trim != "" && cnBounded ((stripTags m).trim)) = true
    · rw [if_pos hcond] at hm
      cases hm
      simp only [Bool.and_eq_true, bne_iff_ne, ne_eq] at hcond
      exact ⟨hcond.1, cnBounded_spec hcond.2⟩
    · rw [if_neg hcond] at hm
      cases hm

theorem fallbackQueries_nonempty_strings : ∀ q ∈ fallbackQueries, q ≠ "" := by decide

theorem getLocalFallback_mem {env : Env} (hperm : shuffleIsPerm env) {n : Nat} {q : String}
    (h : q ∈ getLocalFallback env n) : q ∈ fallbackQueries := by
  unfold getLocalFallback at h
  exact (hperm fallbackQueries).subset ((List.take_sublist _ _).subset h)

theorem fetchGoogleTrends_strings {env : Env} {qs : List String}
    (h : (fetchGoogleTrends env).result = .ok qs) : ∀ q ∈ qs, q ≠ "" := by
  unfold fetchGoogleTrends at h
  cases henv : env.http trendsUrl with
  | error e =>
    rw [henv] at h; dsimp only at h
    cases h; simp
  | ok body =>
    rw [henv] at h; dsimp only at h
    cases hp : googleTrendsParse body with
    | ok l =>
      rw [hp] at h; dsimp only at h
      cases h
      exact googleTrendsParse_strings hp
    | error e =>
      rw [hp] at h; dsimp only at h
      cases h; simp

theorem fetchReddit_strings {env : Env} {qs : List String}
    (h : (fetchReddit env).result = .ok qs) : ∀ q ∈ qs, q ≠ "" := by
  unfold fetchReddit at h
  cases henv : env.http (redditUrl env) with
  | error e =>
    rw [henv] at h; dsimp only at h
    cases h; simp
  | ok body =>
    rw [henv] at h; dsimp only at h
    cases hp : redditParse body with
    | ok l =>
      rw [hp] at h; dsimp only at h
      cases h
      exact redditParse_strings hp
    | error e =>
      rw [hp] at h; dsimp only at h
      cases h; simp

theorem fetchNewsFallback_strings {env : Env} {qs : List String}
    (h : (fetchNewsFallback env).result = .ok qs) : ∀ q ∈ qs, q ≠ "" := by
  unfold fetchNewsFallback at h
  cases henv : env.http bbcUrl with
  | error e =>
    rw [henv] at h; dsimp only at h
    cases h; simp
  | ok body =>
    rw [henv] at h; dsimp only at h
    cases h
    exact extractH3_strings (bodyPlain body)

theorem fetchNews_strings {env : Env} {qs : List String}
    (h : (fetchNews env).result = .ok qs) : ∀ q ∈ qs, q ≠ "" := by
  unfold fetchNews at h
  cases hk : env.apiKey with
  | none =>
    rw [hk] at h; dsimp only at h
    exact fetchNewsFallback_strings h
  | some key =>
    rw [hk] at h; dsimp only at h
    by_cases hkey : key = ""
    · rw [if_pos hkey] at h
      exact fetchNewsFallback_strings h
    · rw [if_neg hkey] at h
      cases henv : env.http (newsApiUrl key) with
      | error e =>
        rw [henv] at h; dsimp only at h
        rw [prependEffects_result] at h
        exact fetchNewsFallback_strings h
      | ok body =>
        rw [henv] at h; dsimp only at h
        cases hp : newsParse body with
        | ok l =>
          rw [hp] at h; dsimp only at h
          cases h
          exact newsParse_strings hp
        | error e =>
          rw [hp] at h; dsimp only at h
          rw [prependEffects_result] at h
          exact fetchNewsFallback_strings h

theorem fetchCnNews_strings {cfg : QueryDiversityConfig} {env : Env} {qs : List String}
    (h : (fetchCnNews cfg env).result = .ok qs) : ∀ q ∈ qs, q ≠ "" := by
  unfold fetchCnNews at h
  cases h1 : env.http cnEndpoint1 with
  | error e =>
    rw [h1] at h; dsimp only at h
    cases h; simp
  | ok b1 =>
    rw [h1] at h; dsimp only at h
    by_cases hq1 : (!(extractCnNewsFromJson b1).isEmpty) = true
    · rw [if_pos hq1] at h
      cases h
      intro q hq
      exact (extractCnNewsFromJson_strings b1 q ((List.take_sublist _ _).subset hq)).1
    · rw [if_neg hq1] at h
      cases h2 : env.http cnEndpoint2 with
      | error e =>
        rw [h2] at h; dsimp only at h
        cases h; simp
      | ok b2 =>
        rw [h2] at h; dsimp only at h
        by_cases hq2 : (!(extractCnNewsFromJson b2).isEmpty) = true
        · rw [if_pos hq2] at h
          cases h
          intro q hq
          exact (extractCnNewsFromJson_strings b2 q ((List.take_sublist _ _).subset hq)).1
        · rw [if_neg hq2] at h
          cases h3 : env.http cnHtmlUrl with
          | error e =>
            rw [h3] at h; dsimp only at h
            cases h; simp
          | ok b3 =>
            rw [h3] at h; dsimp only at h
            cases h
            intro q hq
            exact (extractCnNewsFromHtml_strings (bodyPlain b3) q
              ((List.take_sublist _ _).subset hq)).1

theorem fetchWikipedia_strings {env : Env} {qs : List String}
    (h : (fetchWikipedia env).result = .ok qs) : ∀ q ∈ qs, q ≠ "" := by
  unfold fetchWikipedia at h
  cases henv : env.http wikipediaUrl with
  | error e =>
    rw [henv] at h; dsimp only at h
    cases h; simp
  | ok body =>
    rw [henv] at h; dsimp only at h
    cases hp : wikiParse body with
    | ok l =>
      rw [hp] at h; dsimp only at h
      cases h
      exact wikiParse_strings hp
    | error e =>
      rw [hp] at h; dsimp only at h
      cases h; simp

theorem sourceFetch_strings {cfg : QueryDiversityConfig} {env : Env} {s : String}
    {qs : List String} (hperm : shuffleIsPerm env)
    (h : (sourceFetch cfg env s).result = .ok qs) : ∀ q ∈ qs, q ≠ "" := by
  unfold sourceFetch at h
  split_ifs at h
  · exact fetchGoogleTrends_strings h
  · exact fetchReddit_strings h
  · exact fetchNews_strings h
  · exact fetchCnNews_strings h
  · exact fetchWikipedia_strings h
  · cases h
    intro q hq
    exact fallbackQueries_nonempty_strings q (getLocalFallback_mem hperm hq)
  · cases h; simp

/-- Well-formedness of the cache: every cached query string is non-empty
(established by the adapters, which only cache filtered output). -/
def cacheWF (c : List (String × CacheEntry)) : Prop :=
  ∀ p ∈ c, ∀ q ∈ p.2.queries, q ≠ ""

theorem cacheWF_nil : cacheWF [] := by intro p hp; simp at hp

theorem cleanExpiredCache_subset {now : Nat} {c : List (String × CacheEntry)}
    {p : String × CacheEntry} (h : p ∈ cleanExpiredCache now c) : p ∈ c :=
  (List.mem_filter.mp h).1

theorem cacheWF_clean {now : Nat} {c : List (String × CacheEntry)} (h : cacheWF c) :
    cacheWF (cleanExpiredCache now c) :=
  fun p hp => h p (cleanExpiredCache_subset hp)

theorem cacheWF_set {c : List (String × CacheEntry)} {k : String} {v : CacheEntry}
    (hc : cacheWF c) (hv : ∀ q ∈ v.queries, q ≠ "") : cacheWF (cacheSet c k v) := by
  intro p hp
  unfold cacheSet at hp
  by_cases hk : c.any (fun p => p.1 = k) = true
  · rw [if_pos hk] at hp
    rcases List.mem_map.mp hp with ⟨p', hp', heq⟩
    by_cases hpk : p'.1 = k
    · rw [if_pos hpk] at heq
      subst heq
      exact hv
    · rw [if_neg hpk] at heq
      subst heq
      exact hc p' hp'
  · rw [if_neg hk] at hp
    rcases List.mem_append.mp hp with hmem | hmem
    · exact hc p hmem
    · rcases List.mem_singleton.mp hmem with rfl
      exact hv

theorem cacheLookup_entry {c : List (String × CacheEntry)} {s : String} {e : CacheEntry}
    (h : cacheLookup c s = some e) : (s, e) ∈ c := by
  unfold cacheLookup at h
  cases hf : c.find? (fun p => p.1 = s) with
  | none => rw [hf] at h; simp at h
  | some p =>
    rw [hf] at h
    simp only [Option.map_some', Option.some.injEq] at h
    have hmem := List.mem_of_find?_eq_some hf
    have hprop := List.find?_some hf
    simp only [decide_eq_true_eq] at hprop
    have : p = (s, e) := by
      rcases p with ⟨p1, p2⟩
      simp only at hprop h
      rw [hprop, h]
    exact this ▸ hmem

theorem cacheLookup_clean_sound {now : Nat} {c : List (String × CacheEntry)} {s : String}
    {e : CacheEntry} (h : cacheLookup (cleanExpiredCache now c) s = some e) :
    now < e.expires := by
  have hmem := cacheLookup_entry h
  have := (List.mem_filter.mp hmem).2
  simpa using this

theorem getFromSource_strings {cfg : QueryDiversityConfig} {env : Env} {s : String}
    {st : EngineState} {qs : List String} (hperm : shuffleIsPerm env)
    (hwf : cacheWF st.cache) (h : (getFromSource cfg env s st).1 = .ok qs) :
    ∀ q ∈ qs, q ≠ "" := by
  unfold getFromSource at h
  dsimp only at h
  cases hc : cacheLookup (cleanExpiredCache env.now st.cache) s with
  | some entry =>
    rw [hc] at h
    dsimp only at h
    by_cases ht : env.now < entry.expires
    · rw [if_pos ht] at h
      simp only [Except.ok.injEq] at h
      subst h
      exact cacheWF_clean hwf _ (cacheLookup_entry hc)
    · rw [if_neg ht] at h
      unfold getFromSourceFetch at h
      dsimp only at h
      rcases sourceFetch_isOk cfg env s with ⟨qs0, hqs0⟩
      rw [hqs0] at h
      dsimp only at h
      by_cases hempty : qs0.isEmpty = true
      · rw [if_pos hempty] at h
        simp only [Except.ok.injEq] at h
        subst h
        exact sourceFetch_strings hperm hqs0
      · rw [if_neg hempty] at h
        simp only [Except.ok.injEq] at h
        subst h
        exact sourceFetch_strings hperm hqs0
  | none =>
    rw [hc] at h
    unfold getFromSourceFetch at h
    dsimp only at h
    rcases sourceFetch_isOk cfg env s with ⟨qs0, hqs0⟩
    rw [hqs0] at h
    dsimp only at h
    by_cases hempty : qs0.isEmpty = true
    · rw [if_pos hempty] at h
      simp only [Except.ok.injEq] at h
      subst h
      exact sourceFetch_strings hperm hqs0
    · rw [if_neg hempty] at h
      simp only [Except.ok.injEq] at h
      subst h
      exact sourceFetch_strings hperm hqs0

theorem getFromSource_cacheWF {cfg : QueryDiversityConfig} {env : Env} {s : String}
    {st : EngineState} (hperm : shuffleIsPerm env) (hwf : cacheWF st.cache) :
    cacheWF (getFromSource cfg env s st).2.cache := by
  unfold getFromSource
  dsimp only
  cases hc : cacheLookup (cleanExpiredCache env.now st.cache) s with
  | some entry =>
    dsimp only
    by_cases ht : env.now < entry.expires
    · rw [if_pos ht]
      exact cacheWF_clean hwf
    · rw [if_neg ht]
      unfold getFromSourceFetch
      dsimp only
      rcases sourceFetch_isOk cfg env s with ⟨qs0, hqs0⟩
      rw [hqs0]
      dsimp only
      by_cases hempty : qs0.isEmpty = true
      · rw [if_pos hempty]
        exact cacheWF_clean hwf
      · rw [if_neg hempty]
        exact cacheWF_set (cacheWF_clean hwf) (sourceFetch_strings hperm hqs0)
  | none =>
    unfold getFromSourceFetch
    dsimp only
    rcases sourceFetch_isOk cfg env s with ⟨qs0, hqs0⟩
    rw [hqs0]
    dsimp only
    by_cases hempty : qs0.isEmpty = true
    · rw [if_pos hempty]
      exact cacheWF_clean hwf
    · rw [if_neg hempty]
      exact cacheWF_set (cacheWF_clean hwf) (sourceFetch_strings hperm hqs0)

theorem collect_strings_wf (cfg : QueryDiversityConfig) (env : Env) (srcs : List String) :
    ∀ st : EngineState, shuffleIsPerm env → cacheWF st.cache →
      (∀ q ∈ (collectAllQueries cfg env srcs st).1, q ≠ "") ∧
        cacheWF (collectAllQueries cfg env srcs st).2.cache := by
  induction srcs with
  | nil =>
    intro st hperm hwf
    exact ⟨by simp [collectAllQueries], by simpa [collectAllQueries] using hwf⟩
  | cons s rest ih =>
    intro st hperm hwf
    rcases hgs : getFromSource cfg env s st with ⟨r, st1⟩
    have hwf1 : cacheWF st1.cache := by
      have := @getFromSource_cacheWF cfg env s st hperm hwf
      rwa [hgs] at this
    rw [collectAllQueries]
    dsimp only
    rw [hgs]
    dsimp only
    cases r with
    | error e =>
      dsimp only
      rcases ih (logTo st1 "QUERY-DIVERSITY" ("Failed to fetch from " ++ s ++ ": " ++ e)
          .warn) hperm hwf1 with ⟨ihs, ihwf⟩
      exact ⟨by simpa using ihs, ihwf⟩
    | ok qs =>
      dsimp only
      have hstrings : ∀ q ∈ qs, q ≠ "" := getFromSource_strings hperm hwf (by rw [hgs])
      rcases ih st1 hperm hwf1 with ⟨ihs, ihwf⟩
      refine ⟨?_, ihwf⟩
      intro q hq
      rcases List.mem_append.mp hq with hmem | hmem
      · exact hstrings q ((List.take_sublist _ _).subset hmem)
      · exact ihs q hmem

theorem fallbackQueries_length : fallbackQueries.length = 30 := by decide

theorem fallbackQueries_nodup : fallbackQueries.Nodup := by decide

theorem getLocalFallback_length {env : Env} (hperm : shuffleIsPerm env) (n : Nat) :
    (getLocalFallback env n).length = min n 30 := by
  unfold getLocalFallback
  rw [List.length_take, (hperm fallbackQueries).length_eq, fallbackQueries_length]

theorem fetchQueries_pos (cfg : QueryDiversityConfig) (env : Env) (count : Nat)
    (st : EngineState) (hperm : shuffleIsPerm env) :
    0 < (fetchQueries cfg env count st).1.length := by
  unfold fetchQueries
  dsimp only
  by_cases hsh : ((env.shuffleArray
      (mixStage cfg (dedupStage cfg (collectAllQueries cfg env cfg.sources st).1)
        (max 1 (min count 200)))).take (max 1 (min count 200))).isEmpty = true
  · rw [if_pos hsh]
    dsimp only
    rw [getLocalFallback_length hperm]
    omega
  · rw [if_neg hsh]
    dsimp only
    rw [List.isEmpty_iff] at hsh
    exact List.length_pos.mpr hsh

theorem fetchQueries_len_le (cfg : QueryDiversityConfig) (env : Env) (count : Nat)
    (st : EngineState) : (fetchQueries cfg env count st).1.length ≤ max 1 (min count 200) := by
  unfold fetchQueries
  dsimp only
  by_cases hsh : ((env.shuffleArray
      (mixStage cfg (dedupStage cfg (collectAllQueries cfg env cfg.sources st).1)
        (max 1 (min count 200)))).take (max 1 (min count 200))).isEmpty = true
  · rw [if_pos hsh]
    dsimp only
    unfold getLocalFallback
    rw [List.length_take]
    omega
  · rw [if_neg hsh]
    dsimp only
    rw [List.length_take]
    omega

theorem fetchQueries_strings (cfg : QueryDiversityConfig) (env : Env) (count : Nat)
    (st : EngineState) (hperm : shuffleIsPerm env) (hwf : cacheWF st.cache) :
    ∀ q ∈ (fetchQueries cfg env count st).1, q ≠ "" := by
  unfold fetchQueries
  dsimp only
  by_cases hsh : ((env.shuffleArray
      (mixStage cfg (dedupStage cfg (collectAllQueries cfg env cfg.sources st).1)
        (max 1 (min count 200)))).take (max 1 (min count 200))).isEmpty = true
  · rw [if_pos hsh]
    dsimp only
    intro q hq
    exact fallbackQueries_nonempty_strings q (getLocalFallback_mem hperm hq)
  · rw [if_neg hsh]
    dsimp only
    intro q hq
    have h1 : q ∈ env.shuffleArray (mixStage cfg
        (dedupStage cfg (collectAllQueries cfg env cfg.sources st).1)
        (max 1 (min count 200))) := (List.take_sublist _ _).subset hq
    have h2 := (hperm _).subset h1
    have h3 := (mixStage_sublist cfg _ _).subset h2
    have h4 := dedupStage_mem h3
    exact (collect_strings_wf cfg env cfg.sources st hperm hwf).1 q h4

theorem fetchQueries_fallback_of_empty (cfg : QueryDiversityConfig) (env : Env)
    (count : Nat) (st : EngineState) (hperm : shuffleIsPerm env)
    (hempty : (collectAllQueries cfg env cfg.sources st).1 = []) :
    (fetchQueries cfg env count st).1
      = (env.shuffleArray fallbackQueries).take (max 1 (min count 200)) := by
  unfold fetchQueries
  dsimp only
  rw [hempty]
  have hded : dedupStage cfg [] = [] := by
    unfold dedupStage
    by_cases h : cfg.deduplicate = true <;> simp [h, setDedup]
  rw [hded]
  have hmix : mixStage cfg [] (max 1 (min count 200)) = [] := by
    have := mixStage_sublist cfg [] (max 1 (min count 200))
    exact List.sublist_nil.mp this
  rw [hmix]
  have hsh : (env.shuffleArray []).take (max 1 (min count 200)) = [] := by
    have : env.shuffleArray [] = [] := List.Perm.nil_eq (hperm []).symm ▸ rfl
    rw [this, List.take_nil]
  rw [hsh]
  simp [getLocalFallback]

theorem cleanExpiredCache_idem (now : Nat) (c : List (String × CacheEntry)) :
    cleanExpiredCache now (cleanExpiredCache now c) = cleanExpiredCache now c := by
  unfold cleanExpiredCache
  rw [List.filter_filter]
  simp

theorem cacheLookup_none_iff {c : List (String × CacheEntry)} {s : String} :
    cacheLookup c s = none ↔ ∀ p ∈ c, ¬ p.1 = s := by
  unfold cacheLookup
  rw [Option.map_eq_none', List.find?_eq_none]
  simp only [decide_eq_true_eq]

theorem cacheLookup_none_clean {now : Nat} {c : List (String × CacheEntry)} {s : String}
    (h : cacheLookup c s = none) : cacheLookup (cleanExpiredCache now c) s = none := by
  rw [cacheLookup_none_iff] at h ⊢
  exact fun p hp => h p (cleanExpiredCache_subset hp)

theorem cacheSet_mem {c : List (String × CacheEntry)} {k : String} {v : CacheEntry}
    {p : String × CacheEntry} (h : p ∈ cacheSet c k v) : p.1 = k ∨ p ∈ c := by
  unfold cacheSet at h
  by_cases hk : c.any (fun p => p.1 = k) = true
  · rw [if_pos hk] at h
    rcases List.mem_map.mp h with ⟨q, hq, heq⟩
    by_cases hqk : q.1 = k
    · rw [if_pos hqk] at heq; subst heq; exact Or.inl rfl
    · rw [if_neg hqk] at heq; subst heq; exact Or.inr hq
  · rw [if_neg hk] at h
    rcases List.mem_append.mp h with hmem | hmem
    · exact Or.inr hmem
    · rcases List.mem_singleton.mp hmem with rfl
      exact Or.inl rfl

theorem cacheLookup_none_set {c : List (String × CacheEntry)} {k s : String}
    {v : CacheEntry} (hne : k ≠ s) (h : cacheLookup c s = none) :
    cacheLookup (cacheSet c k v) s = none := by
  rw [cacheLookup_none_iff] at h ⊢
  intro p hp
  rcases cacheSet_mem hp with hk | hmem
  · rw [hk]; exact hne
  · exact h p hmem

theorem cacheLookup_set_self_of_none {c : List (String × CacheEntry)} {k : String}
    {v : CacheEntry} (h : cacheLookup c k = none) :
    cacheSet c k v = c ++ [(k, v)] := by
  unfold cacheSet
  rw [if_neg]
  rw [cacheLookup_none_iff] at h
  simp only [List.any_eq_true, decide_eq_true_eq]
  push_neg
  intro p hp
  exact h p hp

theorem getFromSourceFetch_cache_det (cfg : QueryDiversityConfig) (env : Env) (s : String)
    (stA stB : EngineState) (h : stA.cache = stB.cache) :
    (getFromSourceFetch cfg env s stA).1 = (getFromSourceFetch cfg env s stB).1 ∧
      (getFromSourceFetch cfg env s stA).2.cache
        = (getFromSourceFetch cfg env s stB).2.cache := by
  unfold getFromSourceFetch
  dsimp only
  cases ho : (sourceFetch cfg env s).result with
  | error e =>
    exact ⟨rfl, h⟩
  | ok qs =>
    dsimp only
    by_cases hempty : qs.isEmpty = true
    · simp only [if_pos hempty]
      exact ⟨by trivial, by simp only [logTo, applyOut]; rw [h]⟩
    · simp only [if_neg hempty]
      exact ⟨by trivial, by simp only [logTo, applyOut]; rw [h]⟩

theorem getFromSource_cache_det (cfg : QueryDiversityConfig) (env : Env) (s : String)
    (stA stB : EngineState)
    (h : cleanExpiredCache env.now stA.cache = cleanExpiredCache env.now stB.cache) :
    (getFromSource cfg env s stA).1 = (getFromSource cfg env s stB).1 ∧
      (getFromSource cfg env s stA).2.cache = (getFromSource cfg env s stB).2.cache := by
  unfold getFromSource
  dsimp only
  rw [h]
  cases hc : cacheLookup (cleanExpiredCache env.now stB.cache) s with
  | some entry =>
    dsimp only
    by_cases ht : env.now < entry.expires
    · simp only [if_pos ht]
      exact ⟨by trivial, by trivial⟩
    · simp only [if_neg ht]
      exact getFromSourceFetch_cache_det cfg env s _ _ rfl
  | none =>
    exact getFromSourceFetch_cache_det cfg env s _ _ rfl

theorem collect_cache_det (cfg : QueryDiversityConfig) (env : Env) (srcs : List String) :
    ∀ stA stB : EngineState,
      cleanExpiredCache env.now stA.cache = cleanExpiredCache env.now stB.cache →
      (collectAllQueries cfg env srcs stA).1 = (collectAllQueries cfg env srcs stB).1 ∧
        cleanExpiredCache env.now (collectAllQueries cfg env srcs stA).2.cache
          = cleanExpiredCache env.now (collectAllQueries cfg env srcs stB).2.cache := by
  induction srcs with
  | nil =>
    intro stA stB h
    exact ⟨rfl, by simpa [collectAllQueries] using h⟩
  | cons s rest ih =>
    intro stA stB h
    have hdet := getFromSource_cache_det cfg env s stA stB h
    rcases hgA : getFromSource cfg env s stA with ⟨rA, stA1⟩
    rcases hgB : getFromSource cfg env s stB with ⟨rB, stB1⟩
    rw [hgA, hgB] at hdet
    dsimp only at hdet
    rcases hdet with ⟨hr, hcache⟩
    rw [collectAllQueries, collectAllQueries]
    dsimp only
    rw [hgA, hgB]
    dsimp only
    subst hr
    cases rA with
    | error e =>
      dsimp only
      have := ih (logTo stA1 "QUERY-DIVERSITY" ("Failed to fetch from " ++ s ++ ": " ++ e)
          .warn)
        (logTo stB1 "QUERY-DIVERSITY" ("Failed to fetch from " ++ s ++ ": " ++ e) .warn)
        (by simpa [logTo] using congrArg (cleanExpiredCache env.now) hcache)
      exact ⟨by rw [this.1], this.2⟩
    | ok qs =>
      dsimp only
      have := ih stA1 stB1 (congrArg (cleanExpiredCache env.now) hcache)
      exact ⟨by rw [this.1], this.2⟩

/-- Every URL a source's adapter may request under the given environment
(the news adapter's API URL depends on the configured key, the reddit URL on
the random pick). -/
def sourceUrls (env : Env) (s : String) : List String :=
  if s = "google-trends" then [trendsUrl]
  else if s = "reddit" then [redditUrl env]
  else if s = "news" then
    (match env.apiKey with
     | some k => if k = "" then [] else [newsApiUrl k]
     | none => []) ++ [bbcUrl]
  else if s = "cn-news" then [cnEndpoint1, cnEndpoint2, cnHtmlUrl]
  else if s = "wikipedia" then [wikipediaUrl]
  else []

/-- Total transport failure of one remote source: every URL its adapter may
request throws. The local fallback is excluded because it issues no
requests and cannot fail. -/
def sourceAllFail (env : Env) (s : String) : Prop :=
  s ≠ "local-fallback" ∧ ∀ u ∈ sourceUrls env s, ∃ m, env.http u = .error m

theorem fetchNewsFallback_fail {env : Env} {m : String}
    (h : env.http bbcUrl = .error m) : (fetchNewsFallback env).result = .ok [] := by
  unfold fetchNewsFallback
  rw [h]

theorem sourceFetch_allFail {cfg : QueryDiversityConfig} {env : Env} {s : String}
    (hfail : sourceAllFail env s) : (sourceFetch cfg env s).result = .ok [] := by
  rcases hfail with ⟨hlf, hurls⟩
  unfold sourceUrls at hurls
  unfold sourceFetch
  by_cases h1 : s = "google-trends"
  · rw [if_pos h1]
    rw [if_pos h1] at hurls
    rcases hurls trendsUrl (by simp) with ⟨m, hm⟩
    unfold fetchGoogleTrends
    rw [hm]
  · rw [if_neg h1]
    rw [if_neg h1] at hurls
    by_cases h2 : s = "reddit"
    · rw [if_pos h2]
      rw [if_pos h2] at hurls
      rcases hurls (redditUrl env) (by simp) with ⟨m, hm⟩
      unfold fetchReddit
      rw [hm]
    · rw [if_neg h2]
      rw [if_neg h2] at hurls
      by_cases h3 : s = "news"
      · rw [if_pos h3]
        rw [if_pos h3] at hurls
        unfold fetchNews
        cases hk : env.apiKey with
        | none =>
          rw [hk] at hurls
          dsimp only at hurls ⊢
          rcases hurls bbcUrl (by simp) with ⟨m, hm⟩
          exact fetchNewsFallback_fail hm
        | some key =>
          rw [hk] at hurls
          dsimp only at hurls ⊢
          by_cases hkey : key = ""
          · rw [if_pos hkey]
            rw [if_pos hkey] at hurls
            rcases hurls bbcUrl (by simp) with ⟨m, hm⟩
            exact fetchNewsFallback_fail hm
          · rw [if_neg hkey]
            rw [if_neg hkey] at hurls
            rcases hurls (newsApiUrl key) (by simp) with ⟨m, hm⟩
            rw [hm]
            rw [prependEffects_result]
            rcases hurls bbcUrl (by simp) with ⟨m2, hm2⟩
            exact fetchNewsFallback_fail hm2
      · rw [if_neg h3]
        rw [if_neg h3] at hurls
        by_cases h4 : s = "cn-news"
        · rw [if_pos h4]
          rw [if_pos h4] at hurls
          rcases hurls cnEndpoint1 (by simp) with ⟨m, hm⟩
          unfold fetchCnNews
          rw [hm]
        · rw [if_neg h4]
          rw [if_neg h4] at hurls
          by_cases h5 : s = "wikipedia"
          · rw [if_pos h5]
            rw [if_pos h5] at hurls
            rcases hurls wikipediaUrl (by simp) with ⟨m, hm⟩
            unfold fetchWikipedia
            rw [hm]
          · rw [if_neg h5, if_neg hlf]

theorem getFromSource_allFail {cfg : QueryDiversityConfig} {env : Env} {s : String}
    {st : EngineState} (hfail : sourceAllFail env s)
    (hmiss : cacheLookup (cleanExpiredCache env.now st.cache) s = none) :
    (getFromSource cfg env s st).1 = .ok [] ∧
      (getFromSource cfg env s st).2.cache = cleanExpiredCache env.now st.cache := by
  unfold getFromSource
  dsimp only
  rw [hmiss]
  unfold getFromSourceFetch
  dsimp only
  rw [sourceFetch_allFail hfail]
  dsimp only
  rw [if_pos (by simp)]
  exact ⟨rfl, rfl⟩

theorem collect_skip_failed (cfg : QueryDiversityConfig) (env : Env) (s : String)
    (hfail : sourceAllFail env s) (post : List String) : ∀ pre : List String,
    ∀ st : EngineState, cacheLookup st.cache s = none →
    (collectAllQueries cfg env (pre ++ s :: post) st).1
      = (collectAllQueries cfg env (pre ++ post) st).1 := by
  intro pre
  induction pre with
  | nil =>
    intro st hnone
    have hmiss : cacheLookup (cleanExpiredCache env.now st.cache) s = none :=
      cacheLookup_none_clean hnone
    rcases @getFromSource_allFail cfg env s st hfail hmiss with ⟨hok, hcache⟩
    rcases hgs : getFromSource cfg env s st with ⟨r, st1⟩
    rw [hgs] at hok hcache
    dsimp only at hok hcache
    simp only [List.nil_append]
    rw [collectAllQueries]
    dsimp only
    rw [hgs]
    dsimp only
    rw [hok]
    dsimp only
    have hdet := collect_cache_det cfg env post st1 st (by
      rw [hcache, cleanExpiredCache_idem])
    rw [hdet.1]
    simp
  | cons t pre ih =>
    intro st hnone
    rcases hgs : getFromSource cfg env t st with ⟨r, st1⟩
    have hnone1 : cacheLookup st1.cache s = none := by
      have hgoal : cacheLookup (getFromSource cfg env t st).2.cache s = none := by
        unfold getFromSource
        dsimp only
        cases hc : cacheLookup (cleanExpiredCache env.now st.cache) t with
        | some entry =>
          dsimp only
          by_cases ht : env.now < entry.expires
          · rw [if_pos ht]
            exact cacheLookup_none_clean hnone
          · rw [if_neg ht]
            unfold getFromSourceFetch
            dsimp only
            cases ho : (sourceFetch cfg env t).result with
            | error e => exact cacheLookup_none_clean hnone
            | ok qs =>
              dsimp only
              by_cases hempty : qs.isEmpty = true
              · rw [if_pos hempty]
                exact cacheLookup_none_clean hnone
              · rw [if_neg hempty]
                show cacheLookup (cacheSet _ t _) s = none
                by_cases hts : t = s
                · subst hts
                  exfalso
                  have hok := @sourceFetch_allFail cfg env _ hfail
                  rw [ho] at hok
                  simp only [Except.ok.injEq] at hok
                  subst hok
                  simp at hempty
                · exact cacheLookup_none_set hts (cacheLookup_none_clean hnone)
        | none =>
          unfold getFromSourceFetch
          dsimp only
          cases ho : (sourceFetch cfg env t).result with
          | error e => exact cacheLookup_none_clean hnone
          | ok qs =>
            dsimp only
            by_cases hempty : qs.isEmpty = true
            · rw [if_pos hempty]
              exact cacheLookup_none_clean hnone
            · rw [if_neg hempty]
              show cacheLookup (cacheSet _ t _) s = none
              by_cases hts : t = s
              · subst hts
                exfalso
                have hok := @sourceFetch_allFail cfg env _ hfail
                rw [ho] at hok
                simp only [Except.ok.injEq] at hok
                subst hok
                simp at hempty
              · exact cacheLookup_none_set hts (cacheLookup_none_clean hnone)
      rwa [hgs] at hgoal
    simp only [List.cons_append]
    rw [collectAllQueries, collectAllQueries]
    dsimp only
    rw [hgs]
    dsimp only
    cases r with
    | error e =>
      dsimp only
      rw [ih (logTo st1 "QUERY-DIVERSITY" ("Failed to fetch from " ++ t ++ ": " ++ e)
        .warn) hnone1]
    | ok qs =>
      dsimp only
      rw [ih st1 hnone1]

theorem find?_append_none {α : Type} {p : α → Bool} {l1 l2 : List α}
    (h : l1.find? p = none) : (l1 ++ l2).find? p = l2.find? p := by
  induction l1 with
  | nil => simp
  | cons a l1 ih =>
    by_cases hp : p a = true
    · rw [List.find?_cons_of_pos _ hp] at h
      exact absurd h (by simp)
    · rw [List.find?_cons_of_neg _ hp] at h
      rw [List.cons_append, List.find?_cons_of_neg _ hp]
      exact ih h

theorem cacheLookup_clean_append {t2 : Nat} {c1 : List (String × CacheEntry)} {s : String}
    {v : CacheEntry} (hk : cacheLookup c1 s = none) (ht : t2 < v.expires) :
    cacheLookup (cleanExpiredCache t2 (c1 ++ [(s, v)])) s = some v := by
  unfold cleanExpiredCache cacheLookup
  rw [List.filter_append]
  have h1 : ((c1.filter fun p => decide (t2 < p.2.expires)).find? fun p => p.1 = s) = none := by
    rw [List.find?_eq_none]
    intro p hp
    have := cacheLookup_none_iff.mp hk p (List.mem_filter.mp hp).1
    simpa using this
  rw [find?_append_none h1]
  simp [ht]

theorem cacheLookup_clean_append_expired {t2 : Nat} {c1 : List (String × CacheEntry)}
    {s : String} {v : CacheEntry} (hk : cacheLookup c1 s = none) (ht : ¬ t2 < v.expires) :
    cacheLookup (cleanExpiredCache t2 (c1 ++ [(s, v)])) s = none := by
  rw [cacheLookup_none_iff]
  intro p hp
  rcases List.mem_append.mp (cleanExpiredCache_subset hp) with hmem | hmem
  · exact cacheLookup_none_iff.mp hk p hmem
  · rcases List.mem_singleton.mp hmem with rfl
    have := (List.mem_filter.mp hp).2
    simp only [decide_eq_true_eq] at this
    exact absurd this ht

theorem getFromSource_fetch_success {cfg : QueryDiversityConfig} {env : Env} {s : String}
    {st : EngineState} {qs : List String}
    (hmiss : cacheLookup (cleanExpiredCache env.now st.cache) s = none)
    (hok : (getFromSource cfg env s st).1 = .ok qs) (hne : qs ≠ []) :
    (getFromSource cfg env s st).2.cache
      = cleanExpiredCache env.now st.cache
          ++ [(s, ⟨qs, env.now + cfg.cacheMinutes * 60000⟩)] ∧
    (getFromSource cfg env s st).2.requests
      = st.requests ++ (sourceFetch cfg env s).requests := by
  unfold getFromSource at hok ⊢
  dsimp only at hok ⊢
  rw [hmiss] at hok ⊢
  unfold getFromSourceFetch at hok ⊢
  dsimp only at hok ⊢
  cases ho : (sourceFetch cfg env s).result with
  | error e =>
    rw [ho] at hok
    simp at hok
  | ok qs0 =>
    rw [ho] at hok
    dsimp only at hok ⊢
    by_cases hempty : qs0.isEmpty = true
    · rw [if_pos hempty] at hok ⊢
      simp only [Except.ok.injEq] at hok
      subst hok
      rw [List.isEmpty_iff] at hempty
      exact absurd hempty hne
    · rw [if_neg hempty] at hok ⊢
      simp only [Except.ok.injEq] at hok
      subst hok
      constructor
      · show cacheSet (cleanExpiredCache env.now st.cache) s _ = _
        exact cacheLookup_set_self_of_none hmiss
      · rfl

theorem getFromSource_hit {cfg : QueryDiversityConfig} {env2 : Env} {s : String}
    {stc : EngineState} {v : CacheEntry}
    (hc : cacheLookup (cleanExpiredCache env2.now stc.cache) s = some v)
    (ht : env2.now < v.expires) :
    getFromSource cfg env2 s stc
      = (.ok v.queries, { stc with cache := cleanExpiredCache env2.now stc.cache }) := by
  unfold getFromSource
  dsimp only
  rw [hc]
  dsimp only
  rw [if_pos ht]

theorem fetchGoogleTrends_requests (env : Env) :
    (fetchGoogleTrends env).requests = [trendsUrl] := by
  unfold fetchGoogleTrends
  cases henv : env.http trendsUrl with
  | error e => rfl
  | ok body =>
    cases hp : googleTrendsParse body with
    | ok qs => simp [hp]
    | error e => simp [hp]

theorem fetchReddit_requests (env : Env) :
    (fetchReddit env).requests = [redditUrl env] := by
  unfold fetchReddit
  cases henv : env.http (redditUrl env) with
  | error e => rfl
  | ok body =>
    cases hp : redditParse body with
    | ok qs => simp [hp]
    | error e => simp [hp]

theorem fetchWikipedia_requests (env : Env) :
    (fetchWikipedia env).requests = [wikipediaUrl] := by
  unfold fetchWikipedia
  cases henv : env.http wikipediaUrl with
  | error e => rfl
  | ok body =>
    cases hp : wikiParse body with
    | ok qs => simp [hp]
    | error e => simp [hp]

theorem fetchNewsFallback_requests (env : Env) :
    (fetchNewsFallback env).requests = [bbcUrl] := by
  unfold fetchNewsFallback
  cases henv : env.http bbcUrl <;> rfl

theorem fetchNews_requests_ne (env : Env) : (fetchNews env).requests ≠ [] := by
  unfold fetchNews
  cases hk : env.apiKey with
  | none => rw [fetchNewsFallback_requests]; simp
  | some key =>
    dsimp only
    by_cases hkey : key = ""
    · rw [if_pos hkey, fetchNewsFallback_requests]; simp
    · rw [if_neg hkey]
      cases henv : env.http (newsApiUrl key) with
      | error e => simp [prependEffects]
      | ok body =>
        cases hp : newsParse body with
        | ok qs => simp [hp]
        | error e => simp [hp, prependEffects]

theorem fetchCnNews_requests_ne (cfg : QueryDiversityConfig) (env : Env) :
    (fetchCnNews cfg env).requests ≠ [] := by
  unfold fetchCnNews
  cases h1 : env.http cnEndpoint1 with
  | error e => simp
  | ok b1 =>
    dsimp only
    by_cases hq1 : (!(extractCnNewsFromJson b1).isEmpty) = true
    · rw [if_pos hq1]; simp
    · rw [if_neg hq1]
      cases h2 : env.http cnEndpoint2 with
      | error e => simp
      | ok b2 =>
        dsimp only
        by_cases hq2 : (!(extractCnNewsFromJson b2).isEmpty) = true
        · rw [if_pos hq2]; simp
        · rw [if_neg hq2]
          cases h3 : env.http cnHtmlUrl with
          | error e => simp
          | ok b3 => simp

def remoteSources : List String :=
  ["google-trends", "reddit", "news", "cn-news", "wikipedia"]

theorem sourceFetch_requests_ne {cfg : QueryDiversityConfig} {env : Env} {s : String}
    (hs : s ∈ remoteSources) : (sourceFetch cfg env s).requests ≠ [] := by
  unfold sourceFetch
  simp only [remoteSources, List.mem_cons, List.not_mem_nil, or_false] at hs
  rcases hs with rfl | rfl | rfl | rfl | rfl
  · rw [if_pos rfl, fetchGoogleTrends_requests]; simp
  · rw [if_neg (by decide), if_pos rfl, fetchReddit_requests]; simp
  · rw [if_neg (by decide), if_neg (by decide), if_pos rfl]
    exact fetchNews_requests_ne env
  · rw [if_neg (by decide), if_neg (by decide), if_neg (by decide), if_pos rfl]
    exact fetchCnNews_requests_ne cfg env
  · rw [if_neg (by decide), if_neg (by decide), if_neg (by decide), if_neg (by decide),
      if_pos rfl, fetchWikipedia_requests]
    simp

theorem append_ne_self {α : Type} (a b : List α) (hb : b ≠ []) : a ++ b ≠ a := by
  intro h
  have := congrArg List.length h
  rw [List.length_append] at this
  have : b.length = 0 := by omega
  exact hb (List.length_eq_zero.mp this)

theorem getFromSource_miss_requests_grow {cfg : QueryDiversityConfig} {env2 : Env}
    {s : String} {stc : EngineState} (hs : s ∈ remoteSources)
    (hmiss : cacheLookup (cleanExpiredCache env2.now stc.cache) s = none) :
    (getFromSource cfg env2 s stc).2.requests ≠ stc.requests := by
  unfold getFromSource
  dsimp only
  rw [hmiss]
  unfold getFromSourceFetch
  dsimp only
  cases ho : (sourceFetch cfg env2 s).result with
  | error e =>
    show (applyOut _ _).requests ≠ _
    exact append_ne_self _ _ (sourceFetch_requests_ne hs)
  | ok qs =>
    dsimp only
    by_cases hempty : qs.isEmpty = true
    · rw [if_pos hempty]
      show (applyOut _ _).requests ≠ _
      exact append_ne_self _ _ (sourceFetch_requests_ne hs)
    · rw [if_neg hempty]
      show (applyOut _ _).requests ≠ _
      exact append_ne_self _ _ (sourceFetch_requests_ne hs)

/-- An environment in which every HTTP request throws; the shuffle is the
identity permutation. -/
def envAllFail : Env := ⟨fun _ => .error "network unreachable", none, 0, id, 0⟩

/-- A two-source configuration with one query per source, exercising the
interleaving chunk arithmetic. -/
def cfgC3 : QueryDiversityConfig := ⟨["google-trends", "reddit"], true, true, 1, 30⟩

/-- Claim C3 (counterexample): with two configured sources,
`maxQueriesPerSource = 1`, three input queries and target count 3, the
interleave step returns only 2 queries, not `min (input length) (target
count) = 3`: once `sourceIndex` wraps back to 0 the remaining input is
silently dropped. -/
theorem C3_counterexample :
    (interleaveQueries cfgC3 ["aa", "bb", "cc"] 3).length
      ≠ min (["aa", "bb", "cc"] : List String).length 3 := by decide

/-- Claim C3 (amended): when at least one source is configured and the
input is non-empty, the interleave step is equivalent to truncating the
input to the first `sourceCount * maxQueriesPerSource` elements, dropping
empty strings, and truncating to the target count; it is a prefix
selection, not a round-robin that continues until the target count is
reached or the input is exhausted. -/
theorem C3_interleave_amended (cfg : QueryDiversityConfig) (queries : List String)
    (t : Nat) (hsc : 1 ≤ cfg.sources.length) (hq : queries ≠ []) :
    interleaveQueries cfg queries t
      = ((queries.take (cfg.sources.length * cfg.maxQueriesPerSource)).filter
          (fun q => q != "")).take t :=
  interleaveQueries_closed cfg queries t hsc hq

theorem C3_witness :
    interleaveQueries cfgC3 ["aa", "bb", "cc"] 3
      = (((["aa", "bb", "cc"] : List String).take (2 * 1)).filter (fun q => q != "")).take 3 :=
  C3_interleave_amended cfgC3 ["aa", "bb", "cc"] 3 (by decide) (by decide)

/-- The payload of the C4 scenario: `data.cards[0].content[0].items[0].title
= "示例"` (a two-character title). -/
def cnSamplePayload2 : BodyText :=
  .jsonText (.obj [("data", .obj [("cards", .arr [.obj [("content", .arr
    [.obj [("items", .arr [.obj [("title", .str "示例")]])]])]])])])

/-- The same payload with a four-character title. -/
def cnSamplePayload4 : BodyText :=
  .jsonText (.obj [("data", .obj [("cards", .arr [.obj [("content", .arr
    [.obj [("items", .arr [.obj [("title", .str "示例话题")]])]])]])])])

/-- Claim C4 (counterexample): the two-character title "示例" is rejected by
the strict `length > 2` filter (its JavaScript length is 2), so the
extraction yields the empty list, not `["示例"]`. -/
theorem C4_counterexample :
    extractCnNewsFromJson cnSamplePayload2 ≠ ["示例"] := by decide

/-- Claim C4 (amended): every extracted string has UTF-16 length strictly
between 2 and 100 (so exactly 2 or exactly 100 code units are excluded);
the scenario payload with the two-character title "示例" yields the empty
list, while the same payload with the four-character title "示例话题"
yields exactly that singleton after recursive unwrapping. -/
theorem C4_cn_extraction_amended :
    (∀ (body : BodyText) (q : String),
      q ∈ extractCnNewsFromJson body → 2 < jsLen q ∧ jsLen q < 100) ∧
    extractCnNewsFromJson cnSamplePayload2 = [] ∧
    extractCnNewsFromJson cnSamplePayload4 = ["示例话题"] :=
  ⟨fun body q hq => (extractCnNewsFromJson_strings body q hq).2, by decide, by decide⟩

theorem C4_witness : 2 < jsLen "示例话题" ∧ jsLen "示例话题" < 100 :=
  C4_cn_extraction_amended.1 cnSamplePayload4 "示例话题" (by decide)

/-- Claim C5: with `deduplicate = true`, the deduplication step is
`setDedup`, the first-occurrence-unique collapse: its output has no
duplicates, is a subsequence of its input (so relative order is preserved),
keeps exactly the members of the input, and satisfies the first-occurrence
recursion `setDedup (x :: l) = x :: setDedup (l minus later copies of x)`;
moreover the whole pre-shuffle value (after the optional interleave) has no
duplicates. -/
theorem C5_deduplication :
    (∀ l : List String, (setDedup l).Nodup ∧ (setDedup l).Sublist l ∧
      ∀ a : String, a ∈ setDedup l ↔ a ∈ l) ∧
    (∀ (x : String) (l : List String),
      setDedup (x :: l) = x :: setDedup (l.filter (fun q => q != x))) ∧
    (∀ (cfg : QueryDiversityConfig) (l : List String) (vc : Nat),
      cfg.deduplicate = true →
        dedupStage cfg l = setDedup l ∧ (mixStage cfg (dedupStage cfg l) vc).Nodup) := by
  refine ⟨fun l => ⟨setDedup_nodup l, setDedup_sublist l, fun a => setDedup_mem⟩,
    setDedup_cons, ?_⟩
  intro cfg l vc hd
  have hds : dedupStage cfg l = setDedup l := by unfold dedupStage; rw [if_pos hd]
  refine ⟨hds, ?_⟩
  rw [hds]
  exact List.Nodup.sublist (mixStage_sublist cfg (setDedup l) vc) (setDedup_nodup l)

theorem C5_witness :
    dedupStage cfgC3 ["aa", "bb", "aa"] = setDedup ["aa", "bb", "aa"] ∧
    (mixStage cfgC3 (dedupStage cfgC3 ["aa", "bb", "aa"]) 5).Nodup :=
  C5_deduplication.2.2 cfgC3 ["aa", "bb", "aa"] 5 rfl

/-- Claim C7: every recognized source adapter returns an ordinary (possibly
empty) list for every HTTP-client behavior — the result is always
`Except.ok` — and `getFromSource` likewise never lets a transport or parse
error escape to the aggregator. -/
theorem C7_adapters_never_throw :
    (∀ (cfg : QueryDiversityConfig) (env : Env) (s : String),
      s ∈ ["google-trends", "reddit", "news", "cn-news", "wikipedia", "local-fallback"] →
      ∃ qs, (sourceFetch cfg env s).result = .ok qs) ∧
    (∀ (cfg : QueryDiversityConfig) (env : Env) (s : String) (st : EngineState),
      ∃ qs st', getFromSource cfg env s st = (.ok qs, st')) :=
  ⟨fun cfg env s _ => sourceFetch_isOk cfg env s,
   fun cfg env s st => getFromSource_isOk cfg env s st⟩

theorem C7_witness :
    (∃ qs, (sourceFetch cfgC3 envAllFail "google-trends").result = .ok qs) ∧
    (∃ qs st', getFromSource cfgC3 envAllFail "google-trends" initialState
      = (.ok qs, st')) :=
  ⟨C7_adapters_never_throw.1 cfgC3 envAllFail "google-trends" (by decide),
   C7_adapters_never_throw.2 cfgC3 envAllFail "google-trends" initialState⟩

/-- Overrides supplying zero for both numeric fields (zero is falsy in
JavaScript, so `value || default` replaces it by the default before any
clamping). -/
def c9Zero : ConfigOverrides := ⟨none, none, none, some 0, some 0⟩

/-- Claim C9 (counterexample): a supplied `maxQueriesPerSource` of 0 yields
the default 10, not the clamp of 0 to `[1,50]` (which would be 1). -/
theorem C9_counterexample :
    (mkConfig (some c9Zero)).maxQueriesPerSource ≠ (max 1 (min (0 : Int) 50)).toNat := by
  decide

/-- Claim C9 (amended): the constructor never throws; `sources` is non-empty
and defaults to the fixed built-in set exactly when the caller supplies none
or an empty list; a supplied non-zero `maxQueriesPerSource` (resp.
`cacheMinutes`) is clamped to `[1,50]` (resp. `[1,1440]`), while a supplied
zero — like an absent value — selects the default 10 (resp. 30); the
effective values always lie in the clamp ranges. -/
theorem C9_constructor_amended : ∀ c : Option ConfigOverrides,
    (mkConfig c).sources ≠ [] ∧
    ((c.bind (fun o => o.sources) = none ∨ c.bind (fun o => o.sources) = some []) →
      (mkConfig c).sources = defaultSources) ∧
    (∀ l, c.bind (fun o => o.sources) = some l → l ≠ [] → (mkConfig c).sources = l) ∧
    (∀ n : Int, c.bind (fun o => o.maxQueriesPerSource) = some n → n ≠ 0 →
      (mkConfig c).maxQueriesPerSource = (max 1 (min n 50)).toNat) ∧
    ((c.bind (fun o => o.maxQueriesPerSource) = none ∨
        c.bind (fun o => o.maxQueriesPerSource) = some 0) →
      (mkConfig c).maxQueriesPerSource = 10) ∧
    (∀ n : Int, c.bind (fun o => o.cacheMinutes) = some n → n ≠ 0 →
      (mkConfig c).cacheMinutes = (max 1 (min n 1440)).toNat) ∧
    ((c.bind (fun o => o.cacheMinutes) = none ∨ c.bind (fun o => o.cacheMinutes) = some 0) →
      (mkConfig c).cacheMinutes = 30) ∧
    1 ≤ (mkConfig c).maxQueriesPerSource ∧ (mkConfig c).maxQueriesPerSource ≤ 50 ∧
    1 ≤ (mkConfig c).cacheMinutes ∧ (mkConfig c).cacheMinutes ≤ 1440 := by
  intro c
  refine ⟨?_, ?_, ?_, ?_, ?_, ?_, ?_, ?_, ?_, ?_, ?_⟩
  · unfold mkConfig
    cases hcs : c.bind (fun o => o.sources) with
    | none => simp [defaultSources]
    | some l =>
      dsimp only
      by_cases hl : l.isEmpty = true
      · rw [if_pos hl]; simp [defaultSources]
      · rw [if_neg hl]
        simpa [List.isEmpty_iff] using hl
  · intro h
    unfold mkConfig
    rcases h with h | h <;> simp [h]
  · intro l h hl
    unfold mkConfig
    rw [h]
    dsimp only
    rw [if_neg (by simpa [List.isEmpty_iff] using hl)]
  · intro n h hn
    unfold mkConfig orDefaultNum
    rw [h]
    dsimp only
    rw [if_neg hn]
  · intro h
    unfold mkConfig orDefaultNum
    rcases h with h | h <;> simp [h]
  · intro n h hn
    unfold mkConfig orDefaultNum
    rw [h]
    dsimp only
    rw [if_neg hn]
  · intro h
    unfold mkConfig orDefaultNum
    rcases h with h | h <;> simp [h]
  · unfold mkConfig
    dsimp only
    omega
  · unfold mkConfig
    dsimp only
    omega
  · unfold mkConfig
    dsimp only
    omega
  · unfold mkConfig
    dsimp only
    omega

/-- Overrides exercising the clamping on both numeric fields. -/
def c9Sample : ConfigOverrides := ⟨some ["reddit"], some false, some false, some 47, some 2000⟩

theorem C9_witness :
    (mkConfig (some c9Sample)).sources = ["reddit"] ∧
    (mkConfig (some c9Sample)).maxQueriesPerSource = (max 1 (min (47 : Int) 50)).toNat ∧
    (mkConfig (some c9Sample)).cacheMinutes = (max 1 (min (2000 : Int) 1440)).toNat := by
  have h := C9_constructor_amended (some c9Sample)
  exact ⟨h.2.2.1 ["reddit"] rfl (by decide),
    h.2.2.2.1 47 rfl (by decide),
    h.2.2.2.2.2.1 2000 rfl (by decide)⟩

/-- Claim C1: for every count in `[1,200]` and every behavior of the
injected HTTP client (including every request failing), `fetchQueries`
returns between 1 and `count` strings, all non-empty (assuming the injected
shuffle permutes and the cache holds only adapter-produced, hence
non-empty, strings); when every source contributed nothing, every returned
string belongs to the curated local fallback list. -/
theorem C1_fetchQueries_bounded_nonempty (cfg : QueryDiversityConfig) (env : Env)
    (count : Nat) (st : EngineState) (hperm : shuffleIsPerm env)
    (h1 : 1 ≤ count) (h2 : count ≤ 200) (hwf : cacheWF st.cache) :
    (fetchQueries cfg env count st).1.length ≤ count ∧
    0 < (fetchQueries cfg env count st).1.length ∧
    (∀ q ∈ (fetchQueries cfg env count st).1, q ≠ "") ∧
    ((collectAllQueries cfg env cfg.sources st).1 = [] →
      ∀ q ∈ (fetchQueries cfg env count st).1, q ∈ fallbackQueries) := by
  refine ⟨?_, fetchQueries_pos cfg env count st hperm,
    fetchQueries_strings cfg env count st hperm hwf, ?_⟩
  · have := fetchQueries_len_le cfg env count st
    omega
  · intro hempty q hq
    rw [fetchQueries_fallback_of_empty cfg env count st hperm hempty] at hq
    exact (hperm fallbackQueries).subset ((List.take_sublist _ _).subset hq)

theorem C1_witness :
    (fetchQueries ⟨["google-trends", "reddit", "local-fallback"], true, true, 10, 30⟩
        envAllFail 5 initialState).1.length ≤ 5 ∧
    0 < (fetchQueries ⟨["google-trends", "reddit", "local-fallback"], true, true, 10, 30⟩
        envAllFail 5 initialState).1.length ∧
    (∀ q ∈ (fetchQueries ⟨["google-trends", "reddit", "local-fallback"], true, true, 10, 30⟩
        envAllFail 5 initialState).1, q ≠ "") ∧
    ((collectAllQueries ⟨["google-trends", "reddit", "local-fallback"], true, true, 10, 30⟩
        envAllFail ["google-trends", "reddit", "local-fallback"] initialState).1 = [] →
      ∀ q ∈ (fetchQueries ⟨["google-trends", "reddit", "local-fallback"], true, true, 10, 30⟩
        envAllFail 5 initialState).1, q ∈ fallbackQueries) :=
  C1_fetchQueries_bounded_nonempty
    ⟨["google-trends", "reddit", "local-fallback"], true, true, 10, 30⟩
    envAllFail 5 initialState (fun l => List.Perm.refl l) (by decide) (by decide) cacheWF_nil

/-- Claim C2: a configured source whose every request throws contributes
nothing and does not abort the batch — `getFromSource` returns `ok []`
rather than propagating the exception, the concatenated batch equals the
batch of the same configuration without that source (so every other
configured source's contribution is intact), and the final result is still
non-empty. -/
theorem C2_partial_failure_isolation (cfg : QueryDiversityConfig) (env : Env)
    (s : String) (pre post : List String) (st : EngineState) (count : Nat)
    (hsrc : cfg.sources = pre ++ s :: post)
    (hfail : sourceAllFail env s) (hnone : cacheLookup st.cache s = none)
    (hperm : shuffleIsPerm env) :
    (getFromSource cfg env s st).1 = .ok [] ∧
    (collectAllQueries cfg env cfg.sources st).1
      = (collectAllQueries cfg env (pre ++ post) st).1 ∧
    0 < (fetchQueries cfg env count st).1.length := by
  refine ⟨(getFromSource_allFail hfail (cacheLookup_none_clean hnone)).1, ?_,
    fetchQueries_pos cfg env count st hperm⟩
  rw [hsrc]
  exact collect_skip_failed cfg env s hfail post pre st hnone

theorem C2_witness :
    (getFromSource ⟨["google-trends", "local-fallback"], true, true, 10, 30⟩ envAllFail
        "google-trends" initialState).1 = .ok [] ∧
    (collectAllQueries ⟨["google-trends", "local-fallback"], true, true, 10, 30⟩ envAllFail
        ["google-trends", "local-fallback"] initialState).1
      = (collectAllQueries ⟨["google-trends", "local-fallback"], true, true, 10, 30⟩
          envAllFail ([] ++ ["local-fallback"]) initialState).1 ∧
    0 < (fetchQueries ⟨["google-trends", "local-fallback"], true, true, 10, 30⟩ envAllFail
        7 initialState).1.length :=
  C2_partial_failure_isolation ⟨["google-trends", "local-fallback"], true, true, 10, 30⟩
    envAllFail "google-trends" [] ["local-fallback"] initialState 7 rfl
    ⟨by decide, fun u _ => ⟨"network unreachable", rfl⟩⟩ rfl (fun l => List.Perm.refl l)

/-- Claim C10: looking up a source identifier outside the recognized set
returns `ok []` without issuing any request or writing to the cache, and
appends the unknown-source warning (followed by the empty-result warning)
to the log; `fetchQueries` with such a source still completes with a
non-empty result. -/
theorem C10_unknown_source (cfg : QueryDiversityConfig) (env : Env) (s : String)
    (st : EngineState) (count : Nat)
    (hs : s ∉ ["google-trends", "reddit", "news", "cn-news", "wikipedia", "local-fallback"])
    (hnone : cacheLookup st.cache s = none) (hperm : shuffleIsPerm env) :
    getFromSource cfg env s st
      = (.ok [],
        { st with
            cache := cleanExpiredCache env.now st.cache,
            logs := st.logs ++ [("QUERY-DIVERSITY", "Unknown source: " ++ s, .warn),
              ("QUERY-DIVERSITY", "No queries returned for source: " ++ s, .warn)] }) ∧
    0 < (fetchQueries cfg env count st).1.length := by
  refine ⟨?_, fetchQueries_pos cfg env count st hperm⟩
  simp only [List.mem_cons, List.not_mem_nil, or_false, not_or] at hs
  obtain ⟨n1, n2, n3, n4, n5, n6⟩ := hs
  unfold getFromSource
  dsimp only
  rw [cacheLookup_none_clean hnone]
  unfold getFromSourceFetch
  dsimp only
  have hsf : sourceFetch cfg env s
      = ⟨.ok [], [], [("QUERY-DIVERSITY", "Unknown source: " ++ s, .warn)]⟩ := by
    unfold sourceFetch
    rw [if_neg n1, if_neg n2, if_neg n3, if_neg n4, if_neg n5, if_neg n6]
  rw [hsf]
  dsimp only
  simp [applyOut, logTo]

theorem C10_witness :
    getFromSource cfgC3 envAllFail "bogus" initialState
      = (.ok [],
        { initialState with
            cache := cleanExpiredCache envAllFail.now initialState.cache,
            logs := initialState.logs
              ++ [("QUERY-DIVERSITY", "Unknown source: " ++ "bogus", .warn),
                ("QUERY-DIVERSITY", "No queries returned for source: " ++ "bogus", .warn)] }) ∧
    0 < (fetchQueries cfgC3 envAllFail "bogus".length initialState).1.length :=
  C10_unknown_source cfgC3 envAllFail "bogus" initialState "bogus".length (by decide) rfl
    (fun l => List.Perm.refl l)

/-- A JSON body from which the CN extraction yields nothing. -/
def cnEmptyBody : BodyText := .jsonText (.obj [("data", .obj [("cards", .arr [])])])

/-- A JSON body from which the CN extraction yields one title. -/
def cnGoodBody : BodyText :=
  .jsonText (.obj [("data", .obj [("cards", .arr
    [.obj [("content", .arr [.obj [("title", .str "hello world")]])]])])])

/-- An environment whose first CN endpoint yields an empty board and whose
second yields one title, at time 0. -/
def envCn : Env :=
  ⟨fun u => if u = cnEndpoint1 then .ok cnEmptyBody
    else if u = cnEndpoint2 then .ok cnGoodBody
    else .error "offline", none, 0, id, 0⟩

/-- The same environment 1000 ms later (well within the cache window). -/
def envCn2 : Env := { envCn with now := 1000 }

def cfgCn : QueryDiversityConfig := ⟨["cn-news"], true, true, 10, 30⟩

/-- Claim C6 (counterexample): a single successful non-empty `cn-news`
lookup already issues two HTTP requests (first endpoint empty, second
non-empty), so two lookups of the same source within `cacheMinutes` of a
successful non-empty fetch issue two underlying HTTP requests in total —
not at most one as claimed (the second lookup does hit the cache and issues
none). -/
theorem C6_counterexample :
    (getFromSource cfgCn envCn "cn-news" initialState).1.toOption
        = some ["hello world"] ∧
    (getFromSource cfgCn envCn "cn-news" initialState).2.requests.length = 2 ∧
    (getFromSource cfgCn envCn2 "cn-news"
        (getFromSource cfgCn envCn "cn-news" initialState).2).2.requests.length = 2 ∧
    ¬ (2 : Nat) ≤ 1 :=
  ⟨by decide, by decide, by decide, by decide⟩

/-- Claim C6 (amended): a cache entry is only returned while the current
time is strictly before its expiry (expired entries are evicted before
every lookup); after a cache-miss lookup whose adapter returned a non-empty
list, any lookup of the same source strictly before the stored expiry
returns the cached queries and issues no HTTP request (the adapter is
invoked at most once across the two lookups — though a single adapter
invocation may itself issue several requests, as `cn-news` does), while a
lookup of a remote source at or after the expiry invokes the adapter again
and issues at least one new request. -/
theorem C6_cache_amended :
    (∀ (now : Nat) (c : List (String × CacheEntry)) (s : String) (e : CacheEntry),
        cacheLookup (cleanExpiredCache now c) s = some e → now < e.expires) ∧
    (∀ (cfg : QueryDiversityConfig) (env : Env) (s : String) (st : EngineState)
        (qs : List String),
      cacheLookup (cleanExpiredCache env.now st.cache) s = none →
      (getFromSource cfg env s st).1 = .ok qs → qs ≠ [] →
      (∀ env2 : Env, env2.now < env.now + cfg.cacheMinutes * 60000 →
        getFromSource cfg env2 s (getFromSource cfg env s st).2
          = (.ok qs,
            { (getFromSource cfg env s st).2 with
                cache := cleanExpiredCache env2.now (getFromSource cfg env s st).2.cache }) ∧
        (getFromSource cfg env2 s (getFromSource cfg env s st).2).2.requests
          = (getFromSource cfg env s st).2.requests) ∧
      (∀ env2 : Env, env.now + cfg.cacheMinutes * 60000 ≤ env2.now → s ∈ remoteSources →
        (getFromSource cfg env2 s (getFromSource cfg env s st).2).2.requests
          ≠ (getFromSource cfg env s st).2.requests)) := by
  refine ⟨fun now c s e h => cacheLookup_clean_sound h, ?_⟩
  intro cfg env s st qs hmiss hok hne
  obtain ⟨hcache, hreq⟩ := getFromSource_fetch_success hmiss hok hne
  constructor
  · intro env2 ht2
    have hlk : cacheLookup
        (cleanExpiredCache env2.now (getFromSource cfg env s st).2.cache) s
        = some ⟨qs, env.now + cfg.cacheMinutes * 60000⟩ := by
      rw [hcache]
      exact cacheLookup_clean_append hmiss ht2
    have hhit := @getFromSource_hit cfg _ _ _ _ hlk ht2
    exact ⟨hhit, by rw [hhit]⟩
  · intro env2 ht2 hs
    apply getFromSource_miss_requests_grow hs
    rw [hcache]
    exact cacheLookup_clean_append_expired hmiss
      (show ¬ env2.now < env.now + cfg.cacheMinutes * 60000 by omega)

theorem C6_witness :
    getFromSource cfgCn envCn2 "cn-news" (getFromSource cfgCn envCn "cn-news" initialState).2
      = (.ok ["hello world"],
        { (getFromSource cfgCn envCn "cn-news" initialState).2 with
            cache := cleanExpiredCache envCn2.now
              (getFromSource cfgCn envCn "cn-news" initialState).2.cache }) ∧
    (getFromSource cfgCn envCn2 "cn-news"
        (getFromSource cfgCn envCn "cn-news" initialState).2).2.requests
      = (getFromSource cfgCn envCn "cn-news" initialState).2.requests :=
  (C6_cache_amended.2 cfgCn envCn "cn-news" initialState ["hello world"]
    (by decide) rfl (by decide)).1 envCn2 (by decide)

theorem collect_singleton (cfg : QueryDiversityConfig) (env : Env) (s : String)
    (st : EngineState) :
    (collectAllQueries cfg env [s] st).1
      = (match (getFromSource cfg env s st).1 with
        | .ok qs => qs.take cfg.maxQueriesPerSource
        | .error _ => []) := by
  rcases hgs : getFromSource cfg env s st with ⟨r, st1⟩
  rw [collectAllQueries]
  dsimp only
  rw [hgs]
  cases r <;> dsimp only <;> rw [collectAllQueries] <;> simp

theorem getFromSource_localFallback_val (cfg : QueryDiversityConfig) (env : Env)
    (st : EngineState)
    (hmiss : cacheLookup (cleanExpiredCache env.now st.cache) "local-fallback" = none)
    (hne : getLocalFallback env 20 ≠ []) :
    (getFromSource cfg env "local-fallback" st).1 = .ok (getLocalFallback env 20) := by
  unfold getFromSource
  dsimp only
  rw [hmiss]
  unfold getFromSourceFetch
  dsimp only
  rw [show sourceFetch cfg env "local-fallback"
    = ⟨.ok (getLocalFallback env 20), [], []⟩ from rfl]
  dsimp only
  rw [if_neg (by simpa [List.isEmpty_iff] using hne)]

/-- The scenario configuration `{sources:['local-fallback'],
deduplicate:true, cacheMinutes:30}` passed through the constructor. -/
def cfgLocal : QueryDiversityConfig :=
  mkConfig (some ⟨some ["local-fallback"], some true, none, none, some 30⟩)

/-- Claim C8 (counterexample): the curated fallback list has only 30
entries, so when every source contributes nothing, `fetchQueries 31`
returns 30 strings — not "exactly count" strings. -/
theorem C8_counterexample :
    (collectAllQueries ⟨["google-trends"], true, true, 10, 30⟩ envAllFail
        ["google-trends"] initialState).1 = [] ∧
    (fetchQueries ⟨["google-trends"], true, true, 10, 30⟩ envAllFail 31
        initialState).1.length = 30 ∧
    (30 : Nat) ≠ 31 :=
  ⟨by decide, by decide, by decide⟩

/-- Claim C8 (amended): when every configured source contributes no
queries, `fetchQueries count` returns the shuffled curated list truncated
to `count` — hence exactly `min count 30` strings (the curated list has 30
entries, so counts above 30 cannot be met), all members of the curated set
and pairwise distinct; and in the scenario configuration
`{sources:['local-fallback'], deduplicate:true, cacheMinutes:30}`,
`fetchQueries 5` returns exactly 5 pairwise-distinct members of the curated
set (via the local-fallback source itself, not the empty-batch fallback). -/
theorem C8_fallback_amended :
    (∀ (cfg : QueryDiversityConfig) (env : Env) (count : Nat) (st : EngineState),
      shuffleIsPerm env → 1 ≤ count → count ≤ 200 →
      (collectAllQueries cfg env cfg.sources st).1 = [] →
      (fetchQueries cfg env count st).1 = (env.shuffleArray fallbackQueries).take count ∧
      (fetchQueries cfg env count st).1.length = min count 30 ∧
      (∀ q ∈ (fetchQueries cfg env count st).1, q ∈ fallbackQueries) ∧
      (fetchQueries cfg env count st).1.Nodup) ∧
    (∀ env : Env, shuffleIsPerm env →
      (fetchQueries cfgLocal env 5 initialState).1.length = 5 ∧
      (fetchQueries cfgLocal env 5 initialState).1.Nodup ∧
      ∀ q ∈ (fetchQueries cfgLocal env 5 initialState).1, q ∈ fallbackQueries) := by
  constructor
  · intro cfg env count st hperm h1 h2 hempty
    have hvc : max 1 (min count 200) = count := by omega
    have hout := fetchQueries_fallback_of_empty cfg env count st hperm hempty
    rw [hvc] at hout
    have hshnd : (env.shuffleArray fallbackQueries).Nodup :=
      (hperm fallbackQueries).nodup_iff.mpr fallbackQueries_nodup
    refine ⟨hout, ?_, ?_, ?_⟩
    · rw [hout, List.length_take, (hperm fallbackQueries).length_eq, fallbackQueries_length]
    · intro q hq
      rw [hout] at hq
      exact (hperm fallbackQueries).subset ((List.take_sublist _ _).subset hq)
    · rw [hout]
      exact List.Nodup.sublist (List.take_sublist _ _) hshnd
  · intro env hperm
    have hshnd : (env.shuffleArray fallbackQueries).Nodup :=
      (hperm fallbackQueries).nodup_iff.mpr fallbackQueries_nodup
    have hlf20 : (getLocalFallback env 20).length = 20 := by
      rw [getLocalFallback_length hperm]
      omega
    have hlfne : getLocalFallback env 20 ≠ [] := by
      intro h
      rw [h] at hlf20
      simp at hlf20
    have hval : (getFromSource cfgLocal env "local-fallback" initialState).1
        = .ok (getLocalFallback env 20) :=
      getFromSource_localFallback_val cfgLocal env initialState rfl hlfne
    have hcol : (collectAllQueries cfgLocal env cfgLocal.sources initialState).1
        = (getLocalFallback env 20).take 10 := by
      rw [show cfgLocal.sources = ["local-fallback"] from rfl, collect_singleton, hval]
      rfl
    have hl10nd : ((getLocalFallback env 20).take 10).Nodup := by
      refine List.Nodup.sublist (List.take_sublist _ _) ?_
      unfold getLocalFallback
      exact List.Nodup.sublist (List.take_sublist _ _) hshnd
    have hl10len : ((getLocalFallback env 20).take 10).length = 10 := by
      rw [List.length_take, hlf20]
      omega
    have hded : dedupStage cfgLocal ((getLocalFallback env 20).take 10)
        = (getLocalFallback env 20).take 10 := by
      unfold dedupStage
      rw [if_pos (show cfgLocal.deduplicate = true by decide)]
      exact setDedup_eq_self_of_nodup hl10nd
    have hmix : mixStage cfgLocal ((getLocalFallback env 20).take 10) (max 1 (min 5 200))
        = (getLocalFallback env 20).take 10 := by
      unfold mixStage
      rw [if_neg (by decide)]
    have hsh5 : ((env.shuffleArray ((getLocalFallback env 20).take 10)).take
        (max 1 (min 5 200))).length = 5 := by
      rw [List.length_take, (hperm _).length_eq, hl10len]
      omega
    have hshne : ¬ ((env.shuffleArray ((getLocalFallback env 20).take 10)).take
        (max 1 (min 5 200))).isEmpty = true := by
      intro h
      rw [List.isEmpty_iff] at h
      rw [h] at hsh5
      simp at hsh5
    have hout : (fetchQueries cfgLocal env 5 initialState).1
        = (env.shuffleArray ((getLocalFallback env 20).take 10)).take
            (max 1 (min 5 200)) := by
      unfold fetchQueries
      dsimp only
      rw [hcol, hded, hmix, if_neg hshne]
    refine ⟨by rw [hout]; exact hsh5, ?_, ?_⟩
    · rw [hout]
      refine List.Nodup.sublist (List.take_sublist _ _) ?_
      exact (hperm _).nodup_iff.mpr hl10nd
    · intro q hq
      rw [hout] at hq
      have h1 := (hperm _).subset ((List.take_sublist _ _).subset hq)
      have h2 := (List.take_sublist _ _).subset h1
      exact getLocalFallback_mem hperm h2

theorem C8_witness :
    ((fetchQueries cfgLocal envAllFail 5 initialState).1.length = 5 ∧
      (fetchQueries cfgLocal envAllFail 5 initialState).1.Nodup ∧
      ∀ q ∈ (fetchQueries cfgLocal envAllFail 5 initialState).1, q ∈ fallbackQueries) ∧
    ((fetchQueries ⟨["google-trends"], true, true, 10, 30⟩ envAllFail 31 initialState).1
      = (envAllFail.shuffleArray fallbackQueries).take 31) :=
  ⟨C8_fallback_amended.2 envAllFail (fun l => List.Perm.refl l),
   (C8_fallback_amended.1 ⟨["google-trends"], true, true, 10, 30⟩ envAllFail 31 initialState
      (fun l => List.Perm.refl l) (by decide) (by decide) (by decide)).1⟩
